import Mathlib

/-!
# sediment (milisman): label and milestone reconciliation

A shallow embedding of `src/main.go`.  The program is one `main` function that
loads a configuration document, validates it, and then issues one create call
per label and per milestone against the GitHub API.

Everything the program does to the outside world is recorded as an `Event`,
in program order.  A run ends in one of three ways (`Exit`): `main` returns,
`action.Fatalf` ends the process, or the Go runtime panics.

Go strings are byte strings; they are modelled by Lean strings.  All the byte
tests the program and its libraries make are tests on ASCII bytes, so the two
agree on valid UTF-8 text.
-/

namespace Sediment

/-! ## Data model -/

/-- The fields of `github.Label` the configuration document carries.  Every
field is a Go pointer, so it can be absent. -/
structure Label where
  Name : Option String
  Color : Option String
  Description : Option String
deriving DecidableEq, Repr

/-- The fields of `github.Milestone` the configuration document carries. -/
structure Milestone where
  Title : Option String
  State : Option String
  Description : Option String
  DueOn : Option String
deriving DecidableEq, Repr

/-- The method `(*github.Label).GetName`: the name, or the empty string when the pointer
or the field is nil.  A `*github.Label` is an `Option Label`. -/
def GetName : Option Label → String
  | none => ""
  | some l => l.Name.getD ""

/-- The method `(*github.Milestone).GetTitle`: same as `GetName`, for milestones. -/
def GetTitle : Option Milestone → String
  | none => ""
  | some m => m.Title.getD ""

/-- The struct `github.Error`: one structured error detail of an API error response. -/
structure Error where
  Resource : String
  Field : String
  Code : String
  Message : String
deriving DecidableEq, Repr

/-- The struct `github.ErrorResponse`: the API error shape.  `text` is what its
`Error()` method prints. -/
structure ErrorResponse where
  Message : String
  Errors : List Error
  text : String
deriving DecidableEq, Repr

/-- A non-nil Go `error` value returned by a create call, by dynamic type:
either a `*github.ErrorResponse`, or a value of any other type (a `*url.Error`
for a network fault, a `*github.RateLimitError`, ...), of which only the
`Error()` text is kept. -/
inductive GoError where
  | errorResponse (r : ErrorResponse)
  | other (text : String)
deriving DecidableEq, Repr

/-- The method `err.Error()`. -/
def GoError.Error : GoError → String
  | .errorResponse r => r.text
  | .other t => t

/-- The type assertion `err.(*github.ErrorResponse)`: `none` stands for the
runtime panic of the single-result form on another dynamic type. -/
def GoError.assertErrorResponse : GoError → Option ErrorResponse
  | .errorResponse r => some r
  | .other _ => none

/-- What the program does to the outside world, one constructor per call. -/
inductive Event where
  | Infof (msg : String)
  | AddStepSummary (markdown : String)
  | Group (title : String)
  | EndGroup
  | Stat (name : String)
  | ReadFile (name : String)
  | Get (url : String)
  | ReadAll
  | Unmarshal (data : String)
  | Context
  | Getenv (key : String)
  | CreateLabel (owner repo : String) (label : Option Label) (err : Option GoError)
  | CreateMilestone (owner repo : String) (milestone : Option Milestone)
      (err : Option GoError)
  | Fatalf (msg : String)
deriving DecidableEq, Repr

/-- How a run ends: `main` returns, `action.Fatalf` calls `os.Exit(1)`, or the
Go runtime panics. -/
inductive Exit where
  | returned
  | fatal
  | panicked
deriving DecidableEq, Repr

/-- A finished run: the events in program order, how it ended, and the state
the remote service is left in. -/
structure Run (σ : Type) where
  events : List Event
  exit : Exit
  remote : σ

/-- The events `evs` happen, then the run `r`. -/
def Run.after {σ : Type} (r : Run σ) (evs : List Event) : Run σ :=
  ⟨evs ++ r.events, r.exit, r.remote⟩

/-- The run `r`, then if it returned the run `k` from the state it left. -/
def Run.andThen {σ : Type} (r : Run σ) (k : σ → Run σ) : Run σ :=
  match r.exit with
  | .returned => (k r.remote).after r.events
  | _ => r

/-- The remote service behind `client.Issues`: a state of any type and the two
create calls, each giving the next state and the returned `error` (`none` is
nil).  Any behaviour of the service, also one that depends on the history of
calls, is such a pair of functions. -/
structure Client (σ : Type) where
  CreateLabel : σ → String → String → Option Label → σ × Option GoError
  CreateMilestone : σ → String → String → Option Milestone → σ × Option GoError

/-! ## The reconciliation passes (`main`, lines 87 to 123) -/

/-- The labels loop, lines 90 to 103. -/
def labelsLoop {σ : Type} (client : Client σ) (ghowner ghname : String) :
    List (Option Label) → σ → Run σ
  | [], s => ⟨[], .returned, s⟩
  | label :: rest, s =>
    let res := client.CreateLabel s ghowner ghname label
    match res.2 with
    | none =>
      (labelsLoop client ghowner ghname rest res.1).after
        [.CreateLabel ghowner ghname label none,
         .AddStepSummary (GetName label ++ " Created"),
         .Infof ("label " ++ GetName label ++ " created.")]
    | some err =>
      match err.assertErrorResponse with
      | none => ⟨[.CreateLabel ghowner ghname label (some err)], .panicked, res.1⟩
      | some r =>
        match r.Errors with
        | [] => ⟨[.CreateLabel ghowner ghname label (some err)], .panicked, res.1⟩
        | e0 :: _ =>
          if e0.Code = "already_exists" then
            (labelsLoop client ghowner ghname rest res.1).after
              [.CreateLabel ghowner ghname label (some err),
               .Infof ("label " ++ GetName label ++ " already exists, skipping."),
               .AddStepSummary (GetName label ++ " Skipped")]
          else
            ⟨[.CreateLabel ghowner ghname label (some err),
              .AddStepSummary (GetName label ++ " Failed"),
              .Fatalf ("failed to create label: " ++ err.Error)], .fatal, res.1⟩

/-- The milestones loop, lines 108 to 121. -/
def milestonesLoop {σ : Type} (client : Client σ) (ghowner ghname : String) :
    List (Option Milestone) → σ → Run σ
  | [], s => ⟨[], .returned, s⟩
  | milestone :: rest, s =>
    let res := client.CreateMilestone s ghowner ghname milestone
    match res.2 with
    | none =>
      (milestonesLoop client ghowner ghname rest res.1).after
        [.CreateMilestone ghowner ghname milestone none,
         .AddStepSummary (GetTitle milestone ++ " Created"),
         .Infof ("milestone " ++ GetTitle milestone ++ " created.")]
    | some err =>
      match err.assertErrorResponse with
      | none =>
        ⟨[.CreateMilestone ghowner ghname milestone (some err)], .panicked, res.1⟩
      | some r =>
        match r.Errors with
        | [] =>
          ⟨[.CreateMilestone ghowner ghname milestone (some err)], .panicked, res.1⟩
        | e0 :: _ =>
          if e0.Code = "already_exists" then
            (milestonesLoop client ghowner ghname rest res.1).after
              [.CreateMilestone ghowner ghname milestone (some err),
               .Infof ("milestone " ++ GetTitle milestone ++ " already exists, skipping."),
               .AddStepSummary (GetTitle milestone ++ " Skipped")]
          else
            ⟨[.CreateMilestone ghowner ghname milestone (some err),
              .AddStepSummary (GetTitle milestone ++ " Failed"),
              .Fatalf ("failed to create milestone: " ++ err.Error)], .fatal, res.1⟩

/-- Lines 87 to 123 of `main`: the labels pass, then the milestones pass. -/
def reconcile {σ : Type} (client : Client σ) (ghowner ghname : String)
    (Labels : List (Option Label)) (Milestones : List (Option Milestone)) (s : σ) :
    Run σ :=
  (((labelsLoop client ghowner ghname Labels s).after
      [.Group "Labels", .AddStepSummary "# Labels"]).andThen fun s1 =>
    ((milestonesLoop client ghowner ghname Milestones s1).after
      [.EndGroup, .Group "Milestones", .AddStepSummary "# Milestones"])).andThen fun s2 =>
    ⟨[.EndGroup, .AddStepSummary "Milisman finished."], .returned, s2⟩

/-! ## One loop for both passes

The two loops have the same shape.  `entityLoop` is that shape, written once
over labels and milestones together; `labelsLoop_eq` and `milestonesLoop_eq`
show that each loop of `main` is an instance of it. -/

/-- A label or a milestone of the Desired-State. -/
inductive Entity where
  | label (l : Option Label)
  | milestone (m : Option Milestone)
deriving DecidableEq, Repr

/-- The identity key: `GetName` of a label, `GetTitle` of a milestone. -/
def Entity.key : Entity → String
  | .label l => GetName l
  | .milestone m => GetTitle m

/-- The word the log lines use for the entity. -/
def Entity.noun : Entity → String
  | .label _ => "label"
  | .milestone _ => "milestone"

/-- The create call for an entity. -/
def Client.create {σ : Type} (client : Client σ) (s : σ) (ghowner ghname : String) :
    Entity → σ × Option GoError
  | .label l => client.CreateLabel s ghowner ghname l
  | .milestone m => client.CreateMilestone s ghowner ghname m

/-- The event of the create call for an entity. -/
def Entity.callEvent (ghowner ghname : String) : Entity → Option GoError → Event
  | .label l, e => .CreateLabel ghowner ghname l e
  | .milestone m, e => .CreateMilestone ghowner ghname m e

/-- The four ways one iteration of a loop can go. -/
inductive Verdict where
  | created
  | skipped
  | failed
  | crashed
deriving DecidableEq, Repr

/-- The branch the loop body takes on the `err` a create call returned (lines
92 and 93, 110 and 111): `crashed` is the runtime panic of the type assertion
or of the index `Errors[0]`. -/
def classify : Option GoError → Verdict
  | none => .created
  | some err =>
    match err.assertErrorResponse with
    | none => .crashed
    | some r =>
      match r.Errors with
      | [] => .crashed
      | e0 :: _ => if e0.Code = "already_exists" then .skipped else .failed

/-- The events of one iteration after the call itself. -/
def Entity.afterCall (x : Entity) (e : Option GoError) : List Event :=
  match classify e with
  | .created =>
    [.AddStepSummary (x.key ++ " Created"), .Infof (x.noun ++ " " ++ x.key ++ " created.")]
  | .skipped =>
    [.Infof (x.noun ++ " " ++ x.key ++ " already exists, skipping."),
     .AddStepSummary (x.key ++ " Skipped")]
  | .failed =>
    [.AddStepSummary (x.key ++ " Failed"),
     .Fatalf ("failed to create " ++ x.noun ++ ": " ++ (e.map GoError.Error).getD "")]
  | .crashed => []

/-- How the run ends when an iteration stops the loop. -/
def Verdict.exit : Verdict → Exit
  | .failed => .fatal
  | .crashed => .panicked
  | _ => .returned

/-- Whether the loop goes on to the next entity. -/
def Verdict.continues : Verdict → Bool
  | .created => true
  | .skipped => true
  | _ => false

/-- The common shape of the two loops. -/
def entityLoop {σ : Type} (client : Client σ) (ghowner ghname : String) :
    List Entity → σ → Run σ
  | [], s => ⟨[], .returned, s⟩
  | x :: rest, s =>
    let res := client.create s ghowner ghname x
    if (classify res.2).continues then
      (entityLoop client ghowner ghname rest res.1).after
        (x.callEvent ghowner ghname res.2 :: x.afterCall res.2)
    else
      ⟨x.callEvent ghowner ghname res.2 :: x.afterCall res.2, (classify res.2).exit, res.1⟩

/-- The entities of a Desired-State in processing order. -/
def entities (Labels : List (Option Label)) (Milestones : List (Option Milestone)) :
    List Entity :=
  Labels.map .label ++ Milestones.map .milestone

/-! ## Reading a trace -/

/-- The entity and the returned error of a create call event. -/
def Event.call? : Event → Option (Entity × Option GoError)
  | .CreateLabel _ _ l e => some (.label l, e)
  | .CreateMilestone _ _ m e => some (.milestone m, e)
  | _ => none

/-- The create calls of a trace, in order, each with the error it returned. -/
def callLog (evs : List Event) : List (Entity × Option GoError) :=
  evs.filterMap Event.call?

/-- The entities the create calls of a trace were issued for, in order. -/
def calls (evs : List Event) : List Entity :=
  (callLog evs).map Prod.fst

/-- The line of a step summary event. -/
def Event.summary? : Event → Option String
  | .AddStepSummary line => some line
  | _ => none

/-- The step summary of a trace, line by line. -/
def summary (evs : List Event) : List String :=
  evs.filterMap Event.summary?

/-- A create call that succeeded or failed with `already_exists` as the code of
its first error detail. -/
def Benign (e : Option GoError) : Prop :=
  e = none ∨ ∃ r e0 tl, e = some (.errorResponse r) ∧ r.Errors = e0 :: tl ∧
    e0.Code = "already_exists"

/-- The summary line of a create call that did not stop the run. -/
def outcomeLine (x : Entity) (e : Option GoError) : String :=
  x.key ++ (if e = none then " Created" else " Skipped")

/-! ## The remote store of the idempotence claims

The claims on idempotence and on duplicate keys fix a model of the remote
service: a store of label names and milestone titles, where create inserts an
absent key and answers `already_exists` for a present one. -/

/-- The label names and the milestone titles the remote repository holds. -/
structure Store where
  labels : List String
  milestones : List String
deriving DecidableEq, Repr

/-- The error the store answers for a key it already holds: the API's
"Validation Failed" response, whose first error detail has the code
`already_exists`. -/
def alreadyExists (resource field : String) : GoError :=
  .errorResponse ⟨"Validation Failed", [⟨resource, field, "already_exists", ""⟩],
    "422 Validation Failed"⟩

/-- The store as a remote service. -/
def storeClient : Client Store where
  CreateLabel s _ _ l :=
    if GetName l ∈ s.labels then (s, some (alreadyExists "Label" "name"))
    else (⟨GetName l :: s.labels, s.milestones⟩, none)
  CreateMilestone s _ _ m :=
    if GetTitle m ∈ s.milestones then (s, some (alreadyExists "Milestone" "title"))
    else (⟨s.labels, GetTitle m :: s.milestones⟩, none)

/-- The error the store answers when the entity is already there. -/
def Entity.conflict : Entity → GoError
  | .label _ => alreadyExists "Label" "name"
  | .milestone _ => alreadyExists "Milestone" "title"

/-- Whether the store holds the identity key of the entity. -/
def Store.has (s : Store) : Entity → Prop
  | .label l => GetName l ∈ s.labels
  | .milestone m => GetTitle m ∈ s.milestones

/-! ## `net/url`: what `url.ParseRequestURI` accepts

`main` and the `url` validator both branch on `url.ParseRequestURI`, a function
of the Go standard library.  The definitions below follow `net/url` (Go 1.20)
function by function, on the characters of the string.  Of the parsed URL only
the scheme, the opaque part and the raw host and path are kept. -/

namespace url

/-- The parts of a parsed `url.URL` the program can observe: `Scheme`, and the
raw text of `Opaque`, `Host` and `Path` (each is empty exactly when the field
of the Go value is). -/
structure URL where
  Scheme : String
  Rootless : String
  Host : String
  Path : String
deriving DecidableEq, Repr

/-- The function `stringContainsCTLByte`: a byte below 0x20, or 0x7f. -/
def stringContainsCTLByte (s : List Char) : Bool :=
  s.any fun b => decide (b.toNat < 32) || decide (b.toNat = 127)

/-- An ASCII letter. -/
def isLetter (c : Char) : Bool :=
  (decide ('a' ≤ c) && decide (c ≤ 'z')) || (decide ('A' ≤ c) && decide (c ≤ 'Z'))

/-- An ASCII digit. -/
def isDigit (c : Char) : Bool :=
  decide ('0' ≤ c) && decide (c ≤ '9')

/-- The loop of `getScheme`: the number is the index `i`, the list the bytes from
`i` on.  The result is the scheme and the rest, or `none` for the error
"missing protocol scheme". -/
def getSchemeLoop (rawURL : List Char) : Nat → List Char → Option (List Char × List Char)
  | _, [] => some ([], rawURL)
  | i, c :: cs =>
    if isLetter c then getSchemeLoop rawURL (i + 1) cs
    else if isDigit c || c == '+' || c == '-' || c == '.' then
      if i = 0 then some ([], rawURL) else getSchemeLoop rawURL (i + 1) cs
    else if c == ':' then
      if i = 0 then none else some (rawURL.take i, cs)
    else some ([], rawURL)

/-- The function `getScheme`. -/
def getScheme (rawURL : List Char) : Option (List Char × List Char) :=
  getSchemeLoop rawURL 0 rawURL

/-- The function `strings.Cut(s, sep)` for a one-byte separator: before, after,
found. -/
def cut (s : List Char) (sep : Char) : List Char × List Char × Bool :=
  match s.span (fun c => c != sep) with
  | (before, []) => (before, [], false)
  | (before, _ :: behind) => (before, behind, true)

/-- The function `strings.LastIndex(s, sep)` for a one-byte separator. -/
def lastIndex (s : List Char) (sep : Char) : Option Nat :=
  match s.reverse.indexOf? sep with
  | none => none
  | some j => some (s.length - 1 - j)

/-- The function `strings.Index(s, sub)`. -/
def index (s sub : List Char) : Option Nat :=
  (List.range (s.length + 1)).find? fun i => sub.isPrefixOf (s.drop i)

/-- The function `ishex`. -/
def ishex (c : Char) : Bool :=
  isDigit c || (decide ('a' ≤ c) && decide (c ≤ 'f')) ||
    (decide ('A' ≤ c) && decide (c ≤ 'F'))

/-- The function `unhex`. -/
def unhex (c : Char) : Nat :=
  if isDigit c then c.toNat - 48
  else if decide ('a' ≤ c) && decide (c ≤ 'f') then c.toNat - 97 + 10
  else if decide ('A' ≤ c) && decide (c ≤ 'F') then c.toNat - 65 + 10
  else 0

/-- The escaping modes of `net/url` that parsing uses. -/
inductive encoding where
  | encodePath
  | encodeHost
  | encodeZone
  | encodeUserPassword
deriving DecidableEq, Repr

/-- The function `shouldEscape(c, encodeHost)`: whether an ASCII byte cannot
stand in a host as it is. -/
def shouldEscapeHost (c : Char) : Bool :=
  if isLetter c || isDigit c then false
  else if "!$&()*+,;=:[]<>".toList.contains c || c.toNat = 39 || c.toNat = 34 then false
  else if "-_.~".toList.contains c then false
  else true

/-- The first loop of `unescape(s, mode)`, which decides whether it returns an
error: `true` when it does not. -/
def unescapeOk (mode : encoding) : List Char → Bool
  | [] => true
  | c :: rest =>
    if c == '%' then
      match rest with
      | h1 :: h2 :: rest2 =>
        if !ishex h1 || !ishex h2 then false
        else if mode = .encodeHost && decide (unhex h1 < 8) && !(h1 == '2' && h2 == '5') then
          false
        else if mode = .encodeZone && !(h1 == '2' && h2 == '5') &&
            unhex h1 * 16 + unhex h2 != 32 &&
            shouldEscapeHost (Char.ofNat (unhex h1 * 16 + unhex h2)) then
          false
        else unescapeOk mode rest2
      | _ => false
    else if (mode = .encodeHost || mode = .encodeZone) && decide (c.toNat < 128) &&
        shouldEscapeHost c then
      false
    else unescapeOk mode rest

/-- The function `validOptionalPort`. -/
def validOptionalPort (port : List Char) : Bool :=
  match port with
  | [] => true
  | c :: digits => c == ':' && digits.all isDigit

/-- The function `validUserinfo`. -/
def validUserinfo (s : List Char) : Bool :=
  s.all fun r =>
    isLetter r || isDigit r || "-._:~!$&()*+,;=%@".toList.contains r || r.toNat = 39

/-- The function `parseHost`: `true` when it returns no error. -/
def parseHostOk (host : List Char) : Bool :=
  if "[".toList.isPrefixOf host then
    match lastIndex host ']' with
    | none => false
    | some i =>
      if !validOptionalPort (host.drop (i + 1)) then false
      else
        match index (host.take i) "%25".toList with
        | some zone =>
          unescapeOk .encodeHost (host.take zone) &&
            unescapeOk .encodeZone ((host.take i).drop zone) &&
            unescapeOk .encodeHost (host.drop i)
        | none => unescapeOk .encodeHost host
  else
    match lastIndex host ':' with
    | some i =>
      if !validOptionalPort (host.drop i) then false else unescapeOk .encodeHost host
    | none => unescapeOk .encodeHost host

/-- The function `parseAuthority`: the raw host, or `none` when it returns an error. -/
def parseAuthority (authority : List Char) : Option (List Char) :=
  match lastIndex authority '@' with
  | none => if parseHostOk authority then some authority else none
  | some i =>
    let host := authority.drop (i + 1)
    let userinfo := authority.take i
    if !parseHostOk host then none
    else if !validUserinfo userinfo then none
    else if !userinfo.contains ':' then
      if unescapeOk .encodeUserPassword userinfo then some host else none
    else
      let c := cut userinfo ':'
      if unescapeOk .encodeUserPassword c.1 && unescapeOk .encodeUserPassword c.2.1 then
        some host
      else none

/-- The function `parse(rawURL, viaRequest)`: the URL, or `none` where the Go function
returns an error (the caller only tests the error against nil). -/
def parse (rawURL : List Char) (viaRequest : Bool) : Option URL :=
  if stringContainsCTLByte rawURL then none
  else if rawURL = [] && viaRequest then none
  else if rawURL = ['*'] then some ⟨"", "", "", "*"⟩
  else
    match getScheme rawURL with
    | none => none
    | some (scheme, rest0) =>
      let Scheme := String.mk (scheme.map Char.toLower)
      let rest :=
        if rest0.getLast? = some '?' && rest0.count '?' = 1 then rest0.dropLast
        else (cut rest0 '?').1
      if !"/".toList.isPrefixOf rest && Scheme != "" then some ⟨Scheme, String.mk rest, "", ""⟩
      else if !"/".toList.isPrefixOf rest && viaRequest then none
      else if !"/".toList.isPrefixOf rest && (cut rest '/').1.contains ':' then none
      else if (Scheme != "" || (!viaRequest && !"///".toList.isPrefixOf rest)) &&
          "//".toList.isPrefixOf rest then
        let authority0 := rest.drop 2
        let authority := (cut authority0 '/').1
        let path := authority0.drop authority.length
        match parseAuthority authority with
        | none => none
        | some host =>
          if unescapeOk .encodePath path then some ⟨Scheme, "", String.mk host, String.mk path⟩
          else none
      else if unescapeOk .encodePath rest then some ⟨Scheme, "", "", String.mk rest⟩
      else none

/-- The function `url.ParseRequestURI`: the URL, or `none` for a non-nil error. -/
def ParseRequestURI (rawURL : String) : Option URL :=
  parse rawURL.toList true

end url

/-! ## Configuration loading (`main`, lines 17 to 78) -/

/-- The `Config` struct. -/
structure Config where
  ConfigFile : String
  Labels : List (Option Label)
  Milestones : List (Option Milestone)
deriving DecidableEq, Repr

/-- What `yaml.Unmarshal` finds in a well-formed document for the fields of
`Config`: yaml.v3 takes the lower-cased field name as the key of an exported
field without a tag, so the keys are `configfile`, `labels` and `milestones`.
A key the document does not have is `none`; other keys are ignored. -/
structure Document where
  configfile : Option String
  labels : Option (List (Option Label))
  milestones : Option (List (Option Milestone))
deriving DecidableEq, Repr

/-- Decoding into an existing `Config` value (`yaml.Unmarshal(cfgfile, &c)`):
a field whose key the document has is overwritten, the others are kept. -/
def Document.decodeInto (doc : Document) (c : Config) : Config :=
  ⟨doc.configfile.getD c.ConfigFile, doc.labels.getD c.Labels,
    doc.milestones.getD c.Milestones⟩

/-- The surroundings of one run: the invocation parameter, the file system,
the network, the YAML decoder, the workflow context and the remote service. -/
structure Env (σ : Type) where
  /-- The value of `action.GetInput("configfile")`. -/
  configfile : String
  /-- The function `os.Stat`: `none` for an error, else whether it is a directory. -/
  Stat : String → Option Bool
  /-- The function `os.ReadFile`: the error text or the bytes. -/
  ReadFile : String → Except String String
  /-- The function `http.Get`: the error text, or the response body as
  `io.ReadAll` returns it, the bytes read and the error (`none` is nil). -/
  Get : String → Except String (String × Option String)
  /-- The function `yaml.Unmarshal`: the error text or the decoded fields. -/
  Unmarshal : String → Except String Document
  /-- The calls `githubactions.Context()` and `ghcontext.Repo()`. -/
  Context : Except String (String × String)
  /-- The value of `action.Getenv("GITHUB_TOKEN")`. -/
  GITHUB_TOKEN : String
  /-- The remote service. -/
  client : Client σ

/-- The text of a validator field error for `Config.ConfigFile`. -/
def fieldError (tag : String) : String :=
  let q := String.singleton (Char.ofNat 39)
  "Key: " ++ q ++ "Config.ConfigFile" ++ q ++ " Error:Field validation for " ++ q ++
    "ConfigFile" ++ q ++ " failed on the " ++ q ++ tag ++ q ++ " tag"

/-- The `url` validator of go-playground/validator: the text before the first
`#` is non-empty and `url.ParseRequestURI` accepts it with a scheme. -/
def isURL (field : String) : Bool :=
  let s := (url.cut field.toList '#').1
  if s.length = 0 then false
  else
    match url.ParseRequestURI (String.mk s) with
    | none => false
    | some u => u.Scheme != ""

/-- The `file` validator: `os.Stat` succeeds and the path is not a directory. -/
def isFile (Stat : String → Option Bool) (field : String) : Bool :=
  match Stat field with
  | none => false
  | some isDir => !isDir

/-- The method `Config.Validate` under the tag `required,file|url`: the events
(the `os.Stat` of the `file` validator) and the error, `none` for nil.  The
validator stops at the first tag that fails, and `file|url` holds when either
validator does. -/
def Config.Validate (Stat : String → Option Bool) (c : Config) :
    List Event × Option String :=
  if c.ConfigFile = "" then ([], some (fieldError "required"))
  else if isFile Stat c.ConfigFile then ([.Stat c.ConfigFile], none)
  else if isURL c.ConfigFile then ([.Stat c.ConfigFile], none)
  else ([.Stat c.ConfigFile], some (fieldError "file|url"))

/-- Lines 40 to 54: the events, and `cfgfile` or the message of `Fatalf`.  The
branch is on the error of `url.ParseRequestURI`.  On the HTTP branch the error
of `io.ReadAll` is assigned (line 53) and never tested, so `cfgfile` is
whatever was read. -/
def fetch {σ : Type} (env : Env σ) (ConfigFile : String) :
    List Event × Except String String :=
  match url.ParseRequestURI ConfigFile with
  | none =>
    match env.ReadFile ConfigFile with
    | .error err => ([.ReadFile ConfigFile], .error ("failed to read config file: " ++ err))
    | .ok cfgfile => ([.ReadFile ConfigFile], .ok cfgfile)
  | some _ =>
    match env.Get ConfigFile with
    | .error err => ([.Get ConfigFile], .error ("failed to read config file: " ++ err))
    | .ok body => ([.Get ConfigFile, .ReadAll], .ok body.1)

/-- Lines 28 to 64: the events, and the decoded and validated `Config` or the
message of `Fatalf`. -/
def load {σ : Type} (env : Env σ) : List Event × Except String Config :=
  let start : List Event := [.Infof "milisman starting", .AddStepSummary "# Milisman Report"]
  let c : Config := ⟨env.configfile, [], []⟩
  let v := c.Validate env.Stat
  match v.2 with
  | some err => (start ++ v.1, .error ("missing configfile: " ++ err))
  | none =>
    let f := fetch env c.ConfigFile
    match f.2 with
    | .error msg => (start ++ v.1 ++ f.1, .error msg)
    | .ok cfgfile =>
      match env.Unmarshal cfgfile with
      | .error err =>
        (start ++ v.1 ++ f.1 ++ [.Unmarshal cfgfile],
          .error ("failed to parse config file: " ++ err))
      | .ok doc =>
        let c := doc.decodeInto c
        let w := c.Validate env.Stat
        match w.2 with
        | some err =>
          (start ++ v.1 ++ f.1 ++ [.Unmarshal cfgfile] ++ w.1,
            .error ("invalid configuration: " ++ err))
        | none =>
          (start ++ v.1 ++ f.1 ++ [.Unmarshal cfgfile] ++ w.1 ++
            [.AddStepSummary ("Using config file: " ++ c.ConfigFile)], .ok c)

/-- Lines 66 to 78: the events, and owner and name of the repository or the
message of `Fatalf`. -/
def preflight {σ : Type} (env : Env σ) : List Event × Except String (String × String) :=
  match env.Context with
  | .error err => ([.Context], .error ("failed to get github context: " ++ err))
  | .ok (ghowner, ghname) =>
    if ghowner.length = 0 ∨ ghname.length = 0 then
      ([.Context], .error "failed to get github context.")
    else if env.GITHUB_TOKEN.length = 0 then
      ([.Context, .Getenv "GITHUB_TOKEN"], .error "GITHUB_TOKEN is not set")
    else ([.Context, .Getenv "GITHUB_TOKEN"], .ok (ghowner, ghname))

/-- The program: `main`. -/
def main {σ : Type} (env : Env σ) (s0 : σ) : Run σ :=
  let l := load env
  match l.2 with
  | .error msg => ⟨l.1 ++ [.Fatalf msg], .fatal, s0⟩
  | .ok c =>
    let p := preflight env
    match p.2 with
    | .error msg => ⟨l.1 ++ p.1 ++ [.Fatalf msg], .fatal, s0⟩
    | .ok (ghowner, ghname) =>
      (reconcile env.client ghowner ghname c.Labels c.Milestones s0).after (l.1 ++ p.1)

/-! ## Concrete surroundings, for the worked examples -/

/-- A remote service that answers its calls from a script: the call number `k`
(from 0) gets the entry `k` of the script, and nil once the script is over. -/
def scriptedClient (script : List (Option GoError)) : Client Nat where
  CreateLabel k _ _ _ := (k + 1, (script.get? k).join)
  CreateMilestone k _ _ _ := (k + 1, (script.get? k).join)

/-- A label with a name and nothing else. -/
def labelNamed (name : String) : Option Label :=
  some ⟨some name, none, none⟩

/-- A milestone with a title and nothing else. -/
def milestoneTitled (title : String) : Option Milestone :=
  some ⟨some title, none, none, none⟩

/-- The API error of a rejected entity: "Validation Failed" with the code
`invalid` in its first error detail. -/
def invalidColor : GoError :=
  .errorResponse ⟨"Validation Failed", [⟨"Label", "color", "invalid", ""⟩],
    "422 Validation Failed"⟩

/-- The API error of a missing permission or repository: "Not Found", with no
error details at all. -/
def notFound : GoError :=
  .errorResponse ⟨"Not Found", [], "404 Not Found"⟩

/-- A network fault: a `*url.Error`, not an API error response. -/
def networkFault : GoError :=
  .other "dial tcp: i/o timeout"

/-- Surroundings of a run in a workflow of the repository `octo/repo`, with a
token, where no file exists and no host answers. -/
def bareEnv (configfile : String) : Env Nat where
  configfile := configfile
  Stat := fun _ => none
  ReadFile := fun _ => .error "no such file or directory"
  Get := fun _ => .error "no such host"
  Unmarshal := fun _ => .ok ⟨none, none, none⟩
  Context := .ok ("octo", "repo")
  GITHUB_TOKEN := "token"
  client := scriptedClient []

/-- The configuration is the local file `/github/workspace/labels.yml`, which
exists, is readable and holds one label.  `http.Get` on a string without a
scheme fails with "unsupported protocol scheme". -/
def absolutePathEnv : Env Nat where
  configfile := "/github/workspace/labels.yml"
  Stat := fun name => if name = "/github/workspace/labels.yml" then some false else none
  ReadFile := fun name =>
    if name = "/github/workspace/labels.yml" then .ok "labels:\n- name: bug\n"
    else .error "no such file or directory"
  Get := fun _ => .error "unsupported protocol scheme"
  Unmarshal := fun data =>
    if data = "labels:\n- name: bug\n" then .ok ⟨none, some [labelNamed "bug"], none⟩
    else .error "cannot unmarshal"
  Context := .ok ("octo", "repo")
  GITHUB_TOKEN := "token"
  client := scriptedClient []

/-- The configuration is a remote document with two labels.  The connection
breaks while the body is read: `io.ReadAll` returns the bytes of the first
label together with the error "unexpected EOF". -/
def brokenBodyEnv : Env Nat where
  configfile := "https://example.com/labels.yml"
  Stat := fun _ => none
  ReadFile := fun _ => .error "no such file or directory"
  Get := fun u =>
    if u = "https://example.com/labels.yml" then
      .ok ("labels:\n- name: bug\n", some "unexpected EOF")
    else .error "no such host"
  Unmarshal := fun data =>
    if data = "labels:\n- name: bug\n" then .ok ⟨none, some [labelNamed "bug"], none⟩
    else .error "cannot unmarshal"
  Context := .ok ("octo", "repo")
  GITHUB_TOKEN := "token"
  client := scriptedClient []

/-- The configuration is the local file `labels.yml`, and the document in it
has a top-level `configfile` key that names another source. -/
def overridingEnv : Env Nat where
  configfile := "labels.yml"
  Stat := fun name => if name = "labels.yml" then some false else none
  ReadFile := fun name =>
    if name = "labels.yml" then .ok "configfile: https://example.com/other.yml\n"
    else .error "no such file or directory"
  Get := fun _ => .error "no such host"
  Unmarshal := fun data =>
    if data = "configfile: https://example.com/other.yml\n" then
      .ok ⟨some "https://example.com/other.yml", none, none⟩
    else .error "cannot unmarshal"
  Context := .ok ("octo", "repo")
  GITHUB_TOKEN := "token"
  client := scriptedClient []

/-- The configuration is the local file `labels.yml`, which exists and holds
one label, and the document in it has a top-level `configfile` key with the
empty string as its value. -/
def emptyKeyEnv : Env Nat where
  configfile := "labels.yml"
  Stat := fun name => if name = "labels.yml" then some false else none
  ReadFile := fun name =>
    if name = "labels.yml" then .ok "configfile: \"\"\nlabels:\n- name: bug\n"
    else .error "no such file or directory"
  Get := fun _ => .error "no such host"
  Unmarshal := fun data =>
    if data = "configfile: \"\"\nlabels:\n- name: bug\n" then
      .ok ⟨some "", some [labelNamed "bug"], none⟩
    else .error "cannot unmarshal"
  Context := .ok ("octo", "repo")
  GITHUB_TOKEN := "token"
  client := scriptedClient []

/-- The configuration is the local file `labels.yml`, which holds one label
and no `configfile` key. -/
def localFileEnv : Env Nat where
  configfile := "labels.yml"
  Stat := fun name => if name = "labels.yml" then some false else none
  ReadFile := fun name =>
    if name = "labels.yml" then .ok "labels:\n- name: bug\n"
    else .error "no such file or directory"
  Get := fun _ => .error "no such host"
  Unmarshal := fun data =>
    if data = "labels:\n- name: bug\n" then .ok ⟨none, some [labelNamed "bug"], none⟩
    else .error "cannot unmarshal"
  Context := .ok ("octo", "repo")
  GITHUB_TOKEN := "token"
  client := scriptedClient []

/-! # Theorems -/

/-! ## The two loops are instances of `entityLoop` -/

theorem labelsLoop_eq {σ : Type} (client : Client σ) (o n : String)
    (L : List (Option Label)) (s : σ) :
    labelsLoop client o n L s = entityLoop client o n (L.map .label) s := by
  induction L generalizing s with
  | nil => rfl
  | cons l rest ih =>
    simp only [labelsLoop, List.map_cons, entityLoop, Client.create]
    rcases h : (client.CreateLabel s o n l).2 with _ | err
    · simp [classify, Verdict.continues, ih, Entity.callEvent, Entity.afterCall,
        Entity.key, Entity.noun]
    · rcases err with r | t
      · rcases hr : r.Errors with _ | ⟨e0, tl⟩
        · simp [classify, GoError.assertErrorResponse, hr, Verdict.continues,
            Entity.callEvent, Entity.afterCall, Verdict.exit]
        · by_cases hc : e0.Code = "already_exists"
          · simp [classify, GoError.assertErrorResponse, hr, hc, Verdict.continues, ih,
              Entity.callEvent, Entity.afterCall, Entity.key, Entity.noun]
          · simp [classify, GoError.assertErrorResponse, hr, hc, Verdict.continues,
              Entity.callEvent, Entity.afterCall, Entity.key, Entity.noun, Verdict.exit,
              GoError.Error]
      · simp [classify, GoError.assertErrorResponse, Verdict.continues,
          Entity.callEvent, Entity.afterCall, Verdict.exit]

theorem milestonesLoop_eq {σ : Type} (client : Client σ) (o n : String)
    (M : List (Option Milestone)) (s : σ) :
    milestonesLoop client o n M s = entityLoop client o n (M.map .milestone) s := by
  induction M generalizing s with
  | nil => rfl
  | cons m rest ih =>
    simp only [milestonesLoop, List.map_cons, entityLoop, Client.create]
    rcases h : (client.CreateMilestone s o n m).2 with _ | err
    · simp [classify, Verdict.continues, ih, Entity.callEvent, Entity.afterCall,
        Entity.key, Entity.noun]
    · rcases err with r | t
      · rcases hr : r.Errors with _ | ⟨e0, tl⟩
        · simp [classify, GoError.assertErrorResponse, hr, Verdict.continues,
            Entity.callEvent, Entity.afterCall, Verdict.exit]
        · by_cases hc : e0.Code = "already_exists"
          · simp [classify, GoError.assertErrorResponse, hr, hc, Verdict.continues, ih,
              Entity.callEvent, Entity.afterCall, Entity.key, Entity.noun]
          · simp [classify, GoError.assertErrorResponse, hr, hc, Verdict.continues,
              Entity.callEvent, Entity.afterCall, Entity.key, Entity.noun, Verdict.exit,
              GoError.Error]
      · simp [classify, GoError.assertErrorResponse, Verdict.continues,
          Entity.callEvent, Entity.afterCall, Verdict.exit]

/-! ## Reading the trace of one iteration -/

@[simp] theorem callEvent_call? (o n : String) (x : Entity) (e : Option GoError) :
    (x.callEvent o n e).call? = some (x, e) := by
  cases x <;> rfl

@[simp] theorem callEvent_summary? (o n : String) (x : Entity) (e : Option GoError) :
    (x.callEvent o n e).summary? = none := by
  cases x <;> rfl

theorem afterCall_call? (x : Entity) (e : Option GoError) :
    ∀ ev ∈ x.afterCall e, ev.call? = none := by
  intro ev hev
  unfold Entity.afterCall at hev
  split at hev <;> simp at hev <;> rcases hev with rfl | rfl <;> rfl

@[simp] theorem callLog_nil : callLog [] = [] := rfl

@[simp] theorem callLog_append (a b : List Event) :
    callLog (a ++ b) = callLog a ++ callLog b := by
  simp [callLog]

@[simp] theorem callLog_afterCall (x : Entity) (e : Option GoError) :
    callLog (x.afterCall e) = [] := by
  unfold callLog
  rw [List.filterMap_eq_nil_iff]
  exact afterCall_call? x e

@[simp] theorem callLog_callEvent_cons (o n : String) (x : Entity) (e : Option GoError)
    (evs : List Event) : callLog (x.callEvent o n e :: evs) = (x, e) :: callLog evs := by
  simp [callLog, List.filterMap_cons]

@[simp] theorem calls_nil : calls [] = [] := rfl

@[simp] theorem calls_append (a b : List Event) : calls (a ++ b) = calls a ++ calls b := by
  simp [calls]

@[simp] theorem summary_append (a b : List Event) :
    summary (a ++ b) = summary a ++ summary b := by
  simp [summary]

theorem benign_iff (e : Option GoError) : Benign e ↔ (classify e).continues = true := by
  constructor
  · rintro (rfl | ⟨r, e0, tl, rfl, hr, hc⟩)
    · rfl
    · simp [classify, GoError.assertErrorResponse, hr, hc, Verdict.continues]
  · intro h
    rcases e with _ | err
    · exact Or.inl rfl
    · right
      rcases err with r | t
      · rcases hr : r.Errors with _ | ⟨e0, tl⟩
        · simp [classify, GoError.assertErrorResponse, hr, Verdict.continues] at h
        · by_cases hc : e0.Code = "already_exists"
          · exact ⟨r, e0, tl, rfl, hr, hc⟩
          · simp [classify, GoError.assertErrorResponse, hr, hc, Verdict.continues] at h
      · simp [classify, GoError.assertErrorResponse, Verdict.continues] at h

theorem summary_afterCall (x : Entity) (e : Option GoError)
    (h : (classify e).continues = true) : summary (x.afterCall e) = [outcomeLine x e] := by
  rcases e with _ | err
  · simp [Entity.afterCall, classify, summary, Event.summary?, outcomeLine]
  · unfold Entity.afterCall
    rcases hc : classify (some err) with _ | _ | _ | _
    · simp [classify] at hc
      split at hc
      · simp at hc
      · split at hc
        · simp at hc
        · split at hc <;> simp at hc
    · simp [summary, Event.summary?, outcomeLine]
    · simp [hc, Verdict.continues] at h
    · simp [hc, Verdict.continues] at h

theorem exit_of_continues {v : Verdict} (h : v.continues = false) : v.exit ≠ .returned := by
  cases v <;> simp_all [Verdict.continues, Verdict.exit]

/-- An element of a concatenation lies in the first or in the second part. -/
theorem split_append {α : Type} {pre post A B : List α} {ev : α}
    (h : pre ++ ev :: post = A ++ B) :
    (∃ a, A = pre ++ ev :: a ∧ post = a ++ B) ∨
      (∃ c, pre = A ++ c ∧ B = c ++ ev :: post) := by
  rcases List.append_eq_append_iff.mp h with ⟨a, hA, hB⟩ | ⟨c, hpre, hB⟩
  · rcases a with _ | ⟨a0, a⟩
    · right
      exact ⟨[], by simpa using hA.symm, by simpa using hB.symm⟩
    · left
      simp only [List.cons_append, List.cons.injEq] at hB
      exact ⟨a, by rw [hA, hB.1], hB.2⟩
  · right
    exact ⟨c, hpre, hB⟩

/-- A create call is not among events that are no calls. -/
theorem split_noCall {pre post A B : List Event} {ev : Event} {p : Entity × Option GoError}
    (hA : callLog A = []) (hev : ev.call? = some p) (h : pre ++ ev :: post = A ++ B) :
    ∃ c, pre = A ++ c ∧ B = c ++ ev :: post := by
  rcases split_append h with ⟨a, hA2, -⟩ | h2
  · exfalso
    rw [hA2] at hA
    simp [callLog, List.filterMap_append, List.filterMap_cons, hev] at hA
  · exact h2

/-! ## The loop, entity by entity -/

theorem entityLoop_cons {σ : Type} (client : Client σ) (o n : String) (x : Entity)
    (rest : List Entity) (s : σ) :
    entityLoop client o n (x :: rest) s =
      if (classify (client.create s o n x).2).continues then
        (entityLoop client o n rest (client.create s o n x).1).after
          (x.callEvent o n (client.create s o n x).2 :: x.afterCall (client.create s o n x).2)
      else
        ⟨x.callEvent o n (client.create s o n x).2 :: x.afterCall (client.create s o n x).2,
          (classify (client.create s o n x).2).exit, (client.create s o n x).1⟩ := rfl

/-- The create calls of a loop are issued for an initial segment of the list,
one call per position. -/
theorem entityLoop_calls {σ : Type} (client : Client σ) (o n : String) (xs : List Entity)
    (s : σ) : calls (entityLoop client o n xs s).events <+: xs := by
  induction xs generalizing s with
  | nil => simp [entityLoop]
  | cons x rest ih =>
    rw [entityLoop_cons]
    split
    · simpa [Run.after, calls, List.cons_prefix_cons] using ih _
    · simp [calls, List.cons_prefix_cons]

/-- A loop that returns has called create for every entity, and its summary has
one line per call. -/
theorem entityLoop_returned {σ : Type} (client : Client σ) (o n : String) (xs : List Entity)
    (s : σ) (h : (entityLoop client o n xs s).exit = .returned) :
    calls (entityLoop client o n xs s).events = xs ∧
    summary (entityLoop client o n xs s).events =
      (callLog (entityLoop client o n xs s).events).map (fun p => outcomeLine p.1 p.2) ∧
    ∀ p ∈ callLog (entityLoop client o n xs s).events, Benign p.2 := by
  induction xs generalizing s with
  | nil => simp [entityLoop, summary]
  | cons x rest ih =>
    rw [entityLoop_cons] at h ⊢
    split at h
    · rename_i hc
      simp only [Run.after] at h
      obtain ⟨h1, h2, h3⟩ := ih _ h
      simp only [hc, if_true, Run.after]
      refine ⟨?_, ?_, ?_⟩
      · simpa [calls] using h1
      · rw [← List.singleton_append, summary_append, summary_append,
          summary_afterCall x _ hc, h2]
        simp [summary]
      · intro p hp
        have hp2 : p = (x, (client.create s o n x).2) ∨
            p ∈ callLog (entityLoop client o n rest (client.create s o n x).1).events := by
          simpa using hp
        rcases hp2 with hp2 | hp2
        · rw [hp2]
          exact (benign_iff _).mpr hc
        · exact h3 p hp2
    · rename_i hc
      simp only [Bool.not_eq_true] at hc
      exact absurd h (exit_of_continues hc)

/-- A loop all of whose create calls were benign returns. -/
theorem entityLoop_benign {σ : Type} (client : Client σ) (o n : String) (xs : List Entity)
    (s : σ) (h : ∀ p ∈ callLog (entityLoop client o n xs s).events, Benign p.2) :
    (entityLoop client o n xs s).exit = .returned := by
  induction xs generalizing s with
  | nil => rfl
  | cons x rest ih =>
    rw [entityLoop_cons] at h ⊢
    by_cases hc : (classify (client.create s o n x).2).continues = true
    · simp only [hc, if_true, Run.after] at h ⊢
      apply ih
      intro p hp
      apply h
      simp [hp]
    · exfalso
      apply hc
      rw [← benign_iff]
      simp only [hc] at h
      exact h (x, _) (by simp)

/-- Where a create call stands in the trace of a loop: the calls up to it are
an initial segment of the list, and when it stops the loop nothing follows but
the events of its own iteration. -/
theorem entityLoop_split {σ : Type} (client : Client σ) (o n : String) (xs : List Entity)
    (s : σ) (pre post : List Event) (ev : Event) (x : Entity) (e : Option GoError)
    (h : (entityLoop client o n xs s).events = pre ++ ev :: post)
    (hev : ev.call? = some (x, e)) :
    calls pre ++ [x] <+: xs ∧
    ((classify e).continues = false →
      post = x.afterCall e ∧ (entityLoop client o n xs s).exit = (classify e).exit) := by
  induction xs generalizing s pre with
  | nil => simp [entityLoop] at h
  | cons y rest ih =>
    rw [entityLoop_cons] at h ⊢
    rcases pre with _ | ⟨a, pre⟩
    · -- the call is the first event
      have hhd : ev = y.callEvent o n (client.create s o n y).2 := by
        split at h <;> simp [Run.after] at h <;> exact h.1.symm
      rw [hhd, callEvent_call?] at hev
      simp only [Option.some.injEq, Prod.mk.injEq] at hev
      obtain ⟨rfl, rfl⟩ := hev
      refine ⟨by simp [List.cons_prefix_cons], fun hc => ?_⟩
      simp only [hc, Bool.false_eq_true, if_false] at h ⊢
      simp at h
      exact ⟨h.2.symm, trivial⟩
    · by_cases hc : (classify (client.create s o n y).2).continues = true
      · simp only [hc, if_true, Run.after, List.cons_append, List.cons.injEq] at h ⊢
        obtain ⟨ha, h⟩ := h
        obtain ⟨c, hpre, hrest⟩ := split_noCall (callLog_afterCall y _) hev h.symm
        obtain ⟨h1, h2⟩ := ih _ c hrest
        subst ha hpre
        refine ⟨?_, h2⟩
        simpa [calls, List.cons_prefix_cons] using h1
      · simp only [Bool.not_eq_true] at hc
        simp only [hc, Bool.false_eq_true, if_false, List.cons_append, List.cons.injEq] at h
        have h2 : pre ++ ev :: post = y.afterCall (client.create s o n y).2 ++ [] := by
          simpa using h.2.symm
        obtain ⟨c, -, hnil⟩ := split_noCall (callLog_afterCall y _) hev h2
        simp at hnil

/-- Before a create call in the trace of a loop: every earlier call was benign
and the summary so far has one line per earlier call. -/
theorem entityLoop_before {σ : Type} (client : Client σ) (o n : String) (xs : List Entity)
    (s : σ) (pre post : List Event) (ev : Event) (x : Entity) (e : Option GoError)
    (h : (entityLoop client o n xs s).events = pre ++ ev :: post)
    (hev : ev.call? = some (x, e)) :
    (∀ p ∈ callLog pre, Benign p.2) ∧
    summary pre = (callLog pre).map (fun p => outcomeLine p.1 p.2) := by
  induction xs generalizing s pre with
  | nil => simp [entityLoop] at h
  | cons y rest ih =>
    rw [entityLoop_cons] at h
    rcases pre with _ | ⟨a, pre⟩
    · simp [summary]
    · by_cases hc : (classify (client.create s o n y).2).continues = true
      · simp only [hc, if_true, Run.after, List.cons_append, List.cons.injEq] at h
        obtain ⟨ha, h⟩ := h
        obtain ⟨c, hpre, hrest⟩ := split_noCall (callLog_afterCall y _) hev h.symm
        obtain ⟨h1, h2⟩ := ih _ c hrest
        subst ha hpre
        constructor
        · intro p hp
          have hp2 : p = (y, (client.create s o n y).2) ∨ p ∈ callLog c := by
            simpa using hp
          rcases hp2 with hp2 | hp2
          · rw [hp2]
            exact (benign_iff _).mpr hc
          · exact h1 p hp2
        · rw [← List.singleton_append, summary_append, summary_append,
            summary_afterCall y _ hc, h2]
          simp [summary]
      · simp only [Bool.not_eq_true] at hc
        simp only [hc, Bool.false_eq_true, if_false, List.cons_append, List.cons.injEq] at h
        have h2 : pre ++ ev :: post = y.afterCall (client.create s o n y).2 ++ [] := by
          simpa using h.2.symm
        obtain ⟨c, -, hnil⟩ := split_noCall (callLog_afterCall y _) hev h2
        simp at hnil

/-! ## The two passes together -/

theorem reconcile_stop_labels {σ : Type} (client : Client σ) (o n : String)
    (L : List (Option Label)) (M : List (Option Milestone)) (s : σ)
    (h : (entityLoop client o n (L.map .label) s).exit ≠ .returned) :
    reconcile client o n L M s =
      ⟨[.Group "Labels", .AddStepSummary "# Labels"] ++
          (entityLoop client o n (L.map .label) s).events,
        (entityLoop client o n (L.map .label) s).exit,
        (entityLoop client o n (L.map .label) s).remote⟩ := by
  unfold reconcile
  rw [labelsLoop_eq]
  rcases hx : (entityLoop client o n (L.map .label) s).exit with _ | _ | _
  · exact absurd hx h
  · simp [Run.andThen, Run.after, hx]
  · simp [Run.andThen, Run.after, hx]

theorem reconcile_stop_milestones {σ : Type} (client : Client σ) (o n : String)
    (L : List (Option Label)) (M : List (Option Milestone)) (s : σ)
    (h1 : (entityLoop client o n (L.map .label) s).exit = .returned)
    (h2 : (entityLoop client o n (M.map .milestone)
      (entityLoop client o n (L.map .label) s).remote).exit ≠ .returned) :
    reconcile client o n L M s =
      ⟨[.Group "Labels", .AddStepSummary "# Labels"] ++
          (entityLoop client o n (L.map .label) s).events ++
          [.EndGroup, .Group "Milestones", .AddStepSummary "# Milestones"] ++
          (entityLoop client o n (M.map .milestone)
            (entityLoop client o n (L.map .label) s).remote).events,
        (entityLoop client o n (M.map .milestone)
          (entityLoop client o n (L.map .label) s).remote).exit,
        (entityLoop client o n (M.map .milestone)
          (entityLoop client o n (L.map .label) s).remote).remote⟩ := by
  unfold reconcile
  rw [labelsLoop_eq]
  simp only [milestonesLoop_eq]
  rcases hx : (entityLoop client o n (M.map .milestone)
      (entityLoop client o n (L.map .label) s).remote).exit with _ | _ | _
  · exact absurd hx h2
  · simp [Run.andThen, Run.after, h1, hx]
  · simp [Run.andThen, Run.after, h1, hx]

theorem reconcile_done {σ : Type} (client : Client σ) (o n : String)
    (L : List (Option Label)) (M : List (Option Milestone)) (s : σ)
    (h1 : (entityLoop client o n (L.map .label) s).exit = .returned)
    (h2 : (entityLoop client o n (M.map .milestone)
      (entityLoop client o n (L.map .label) s).remote).exit = .returned) :
    reconcile client o n L M s =
      ⟨[.Group "Labels", .AddStepSummary "# Labels"] ++
          (entityLoop client o n (L.map .label) s).events ++
          [.EndGroup, .Group "Milestones", .AddStepSummary "# Milestones"] ++
          (entityLoop client o n (M.map .milestone)
            (entityLoop client o n (L.map .label) s).remote).events ++
          [.EndGroup, .AddStepSummary "Milisman finished."],
        .returned,
        (entityLoop client o n (M.map .milestone)
          (entityLoop client o n (L.map .label) s).remote).remote⟩ := by
  unfold reconcile
  rw [labelsLoop_eq]
  simp only [milestonesLoop_eq]
  simp [Run.andThen, Run.after, h1, h2]

theorem classify_failed (r : ErrorResponse) (e0 : Error) (tl : List Error)
    (herr : r.Errors = e0 :: tl) (hcode : e0.Code ≠ "already_exists") :
    classify (some (.errorResponse r)) = .failed := by
  simp [classify, GoError.assertErrorResponse, herr, hcode]

theorem afterCall_failed (x : Entity) (r : ErrorResponse) (e0 : Error) (tl : List Error)
    (herr : r.Errors = e0 :: tl) (hcode : e0.Code ≠ "already_exists") :
    x.afterCall (some (.errorResponse r)) =
      [.AddStepSummary (x.key ++ " Failed"),
       .Fatalf ("failed to create " ++ x.noun ++ ": " ++ r.text)] := by
  simp [Entity.afterCall, classify_failed r e0 tl herr hcode, GoError.Error]

/-- A create call in a trace made of two loops and three stretches without
calls lies in one of the two loops. -/
theorem split_two {A0 X A1 Y A2 pre post : List Event} {ev : Event}
    {p : Entity × Option GoError}
    (h0 : callLog A0 = []) (h1 : callLog A1 = []) (h2 : callLog A2 = [])
    (hev : ev.call? = some p) (h : pre ++ ev :: post = A0 ++ (X ++ (A1 ++ (Y ++ A2)))) :
    (∃ c d, pre = A0 ++ c ∧ X = c ++ ev :: d ∧ post = d ++ (A1 ++ (Y ++ A2))) ∨
    (∃ c d, pre = A0 ++ (X ++ (A1 ++ c)) ∧ Y = c ++ ev :: d ∧ post = d ++ A2) := by
  obtain ⟨c1, hpre1, hX⟩ := split_noCall h0 hev h
  rcases split_append hX.symm with ⟨a, hXa, hpost⟩ | ⟨c2, hc1, hrest⟩
  · exact Or.inl ⟨c1, a, hpre1, hXa, hpost⟩
  · obtain ⟨c3, hc2, hY⟩ := split_noCall h1 hev hrest.symm
    rcases split_append hY.symm with ⟨a, hYa, hpost⟩ | ⟨c4, -, hA2⟩
    · right
      refine ⟨c3, a, ?_, hYa, hpost⟩
      rw [hpre1, hc1, hc2]
    · exfalso
      rw [hA2] at h2
      simp [callLog, List.filterMap_append, List.filterMap_cons, hev] at h2

theorem callLog_labelsHeader :
    callLog [Event.Group "Labels", Event.AddStepSummary "# Labels"] = [] := rfl

theorem callLog_milestonesHeader :
    callLog [Event.EndGroup, Event.Group "Milestones", Event.AddStepSummary "# Milestones"] =
      [] := rfl

theorem callLog_footer :
    callLog [Event.EndGroup, Event.AddStepSummary "Milisman finished."] = [] := rfl

theorem calls_of_callLog_nil {evs : List Event} (h : callLog evs = []) : calls evs = [] := by
  simp [calls, h]

/-- The calls of the whole reconciliation: those of the labels loop, then those
of the milestones loop when the labels loop returned. -/
theorem reconcile_callLog {σ : Type} (client : Client σ) (o n : String)
    (L : List (Option Label)) (M : List (Option Milestone)) (s : σ) :
    callLog (reconcile client o n L M s).events =
      callLog (entityLoop client o n (L.map .label) s).events ++
        if (entityLoop client o n (L.map .label) s).exit = .returned then
          callLog (entityLoop client o n (M.map .milestone)
            (entityLoop client o n (L.map .label) s).remote).events
        else [] := by
  by_cases h1 : (entityLoop client o n (L.map .label) s).exit = .returned
  · by_cases h2 : (entityLoop client o n (M.map .milestone)
        (entityLoop client o n (L.map .label) s).remote).exit = .returned
    · rw [reconcile_done client o n L M s h1 h2]
      simp [h1, callLog, List.filterMap_cons, List.filterMap_append, Event.call?]
    · rw [reconcile_stop_milestones client o n L M s h1 h2]
      simp [h1, callLog, List.filterMap_cons, List.filterMap_append, Event.call?]
  · rw [reconcile_stop_labels client o n L M s h1]
    simp [h1, callLog, List.filterMap_cons, List.filterMap_append, Event.call?]

/-- C3. Processing order and one call per entity.  The create calls of a
reconciliation are issued for an initial segment of the labels in sequence
order followed by the milestones in sequence order, one call per list position.
When every issued create call succeeds or fails with `already_exists`, the run
returns, the calls are exactly the labels followed by the milestones, and the
step summary has exactly one "Created" or "Skipped" line per entity, in that
order, under the two headings.  A run that returns has only such calls. -/
theorem reconcile_processing_order {σ : Type} (client : Client σ) (o n : String)
    (L : List (Option Label)) (M : List (Option Milestone)) (s : σ) :
    calls (reconcile client o n L M s).events <+: entities L M ∧
    ((∀ p ∈ callLog (reconcile client o n L M s).events, Benign p.2) →
      (reconcile client o n L M s).exit = .returned ∧
      calls (reconcile client o n L M s).events = entities L M ∧
      summary (reconcile client o n L M s).events =
        "# Labels" ::
          ((callLog (reconcile client o n L M s).events).take L.length).map
            (fun p => outcomeLine p.1 p.2) ++
        "# Milestones" ::
          ((callLog (reconcile client o n L M s).events).drop L.length).map
            (fun p => outcomeLine p.1 p.2) ++
        ["Milisman finished."]) ∧
    ((reconcile client o n L M s).exit = .returned →
      ∀ p ∈ callLog (reconcile client o n L M s).events, Benign p.2) := by
  have hlog := reconcile_callLog client o n L M s
  have hpl := entityLoop_calls client o n (L.map .label) s
  have hpm := entityLoop_calls client o n (M.map .milestone)
    (entityLoop client o n (L.map .label) s).remote
  refine ⟨?_, ?_, ?_⟩
  · unfold calls entities
    rw [hlog]
    by_cases h1 : (entityLoop client o n (L.map .label) s).exit = .returned
    · have hl := (entityLoop_returned client o n _ s h1).1
      unfold calls at hl hpm
      simp only [h1, if_true, List.map_append, hl]
      exact (List.prefix_append_right_inj _).mpr hpm
    · simp only [h1, if_false, List.append_nil]
      exact hpl.trans (List.prefix_append _ _)
  · intro hb
    have h1 : (entityLoop client o n (L.map .label) s).exit = .returned := by
      apply entityLoop_benign
      intro p hp
      apply hb
      rw [hlog]
      exact List.mem_append_left _ hp
    have h2 : (entityLoop client o n (M.map .milestone)
        (entityLoop client o n (L.map .label) s).remote).exit = .returned := by
      apply entityLoop_benign
      intro p hp
      apply hb
      rw [hlog]
      simp only [h1, if_true]
      exact List.mem_append_right _ hp
    obtain ⟨hl1, hl2, -⟩ := entityLoop_returned client o n _ s h1
    obtain ⟨hm1, hm2, -⟩ := entityLoop_returned client o n _ _ h2
    have hlen : (callLog (entityLoop client o n (L.map .label) s).events).length = L.length := by
      have := congrArg List.length hl1
      simpa [calls] using this
    refine ⟨?_, ?_, ?_⟩
    · rw [reconcile_done client o n L M s h1 h2]
    · unfold calls entities
      rw [hlog]
      unfold calls at hl1 hm1
      simp only [h1, if_true, List.map_append, hl1, hm1]
    · rw [hlog]
      simp only [h1, if_true]
      rw [List.take_left' hlen, List.drop_left' hlen, ← hl2, ← hm2,
        reconcile_done client o n L M s h1 h2]
      simp [summary, Event.summary?]
  · intro hret p hp
    rw [hlog] at hp
    by_cases h1 : (entityLoop client o n (L.map .label) s).exit = .returned
    · by_cases h2 : (entityLoop client o n (M.map .milestone)
          (entityLoop client o n (L.map .label) s).remote).exit = .returned
      · simp only [h1, if_true, List.mem_append] at hp
        rcases hp with hp | hp
        · exact (entityLoop_returned client o n _ s h1).2.2 p hp
        · exact (entityLoop_returned client o n _ _ h2).2.2 p hp
      · rw [reconcile_stop_milestones client o n L M s h1 h2] at hret
        exact absurd hret h2
    · rw [reconcile_stop_labels client o n L M s h1] at hret
      exact absurd hret h1

theorem calls_cons_call {ev : Event} {x : Entity} {e : Option GoError}
    (hev : ev.call? = some (x, e)) (evs : List Event) : calls (ev :: evs) = x :: calls evs := by
  simp [calls, callLog, List.filterMap_cons, hev]

theorem label_of_mem_map {L : List (Option Label)} {y : Entity}
    (h : y ∈ L.map Entity.label) : ∃ l, y = .label l := by
  obtain ⟨l, -, rfl⟩ := List.mem_map.mp h
  exact ⟨l, rfl⟩

theorem milestone_of_mem_map {M : List (Option Milestone)} {y : Entity}
    (h : y ∈ M.map Entity.milestone) : ∃ m, y = .milestone m := by
  obtain ⟨m, -, rfl⟩ := List.mem_map.mp h
  exact ⟨m, rfl⟩

theorem summary_cons_call {ev : Event} {p : Entity × Option GoError}
    (hev : ev.call? = some p) (evs : List Event) : summary (ev :: evs) = summary evs := by
  cases ev <;> simp [Event.call?] at hev <;> simp [summary, List.filterMap_cons, Event.summary?]

theorem summary_labelsHeader :
    summary [Event.Group "Labels", Event.AddStepSummary "# Labels"] = ["# Labels"] := rfl

theorem summary_milestonesHeader :
    summary [Event.EndGroup, Event.Group "Milestones", Event.AddStepSummary "# Milestones"] =
      ["# Milestones"] := rfl

/-- C1. Early halt.  Whatever the remote service does: if some create call of
a reconciliation fails with an error response whose first error detail has a
code other than `already_exists`, then the run ends in the fatal termination,
the only events after that call are the summary line "<key> Failed" and the
call of `Fatalf`, the create calls issued are exactly those up to and including
the failing one and they are an initial segment of labels then milestones (so
no later label and no later milestone is attempted), every earlier call was
benign, and the summary is one "Created" or "Skipped" line per earlier call
under the headings, followed by the "Failed" line.  When the failing entity is
a label no create call is issued for a milestone. -/
theorem reconcile_early_halt {σ : Type} (client : Client σ) (o n : String)
    (L : List (Option Label)) (M : List (Option Milestone)) (s : σ)
    (pre post : List Event) (ev : Event) (x : Entity) (r : ErrorResponse)
    (e0 : Error) (tl : List Error)
    (hrun : (reconcile client o n L M s).events = pre ++ ev :: post)
    (hev : ev.call? = some (x, some (.errorResponse r)))
    (herr : r.Errors = e0 :: tl) (hcode : e0.Code ≠ "already_exists") :
    (reconcile client o n L M s).exit = .fatal ∧
    post = [.AddStepSummary (x.key ++ " Failed"),
      .Fatalf ("failed to create " ++ x.noun ++ ": " ++ r.text)] ∧
    calls (reconcile client o n L M s).events = calls pre ++ [x] ∧
    calls pre ++ [x] <+: entities L M ∧
    (∀ p ∈ callLog pre, Benign p.2) ∧
    (∀ l, x = .label l →
      (∀ y ∈ calls (reconcile client o n L M s).events, ∃ l2, y = .label l2) ∧
      summary (reconcile client o n L M s).events =
        "# Labels" :: (callLog pre).map (fun p => outcomeLine p.1 p.2) ++
          [GetName l ++ " Failed"]) ∧
    (∀ m, x = .milestone m →
      summary (reconcile client o n L M s).events =
        "# Labels" :: ((callLog pre).take L.length).map (fun p => outcomeLine p.1 p.2) ++
        "# Milestones" :: ((callLog pre).drop L.length).map (fun p => outcomeLine p.1 p.2) ++
          [GetTitle m ++ " Failed"]) := by
  have hcl := classify_failed r e0 tl herr hcode
  have hcont : (classify (some (GoError.errorResponse r))).continues = false := by
    rw [hcl]; rfl
  have hafter := afterCall_failed x r e0 tl herr hcode
  -- everything follows from where the call lies and what follows it
  suffices hkey : (reconcile client o n L M s).exit = .fatal ∧
      post = x.afterCall (some (.errorResponse r)) ∧
      calls pre ++ [x] <+: entities L M ∧
      (∀ p ∈ callLog pre, Benign p.2) ∧
      (∀ l, x = .label l → (∀ y ∈ calls pre, ∃ l2, y = .label l2) ∧
        summary pre = "# Labels" :: (callLog pre).map (fun p => outcomeLine p.1 p.2)) ∧
      (∀ m, x = .milestone m →
        summary pre =
          "# Labels" :: ((callLog pre).take L.length).map (fun p => outcomeLine p.1 p.2) ++
          "# Milestones" ::
            ((callLog pre).drop L.length).map (fun p => outcomeLine p.1 p.2)) by
    obtain ⟨k1, k2, k3, k4, k5, k6⟩ := hkey
    have hcalls : calls (reconcile client o n L M s).events = calls pre ++ [x] := by
      rw [hrun, calls_append, calls_cons_call hev, k2,
        calls_of_callLog_nil (callLog_afterCall x _)]
    have hsum : summary (reconcile client o n L M s).events =
        summary pre ++ [x.key ++ " Failed"] := by
      rw [hrun, summary_append, summary_cons_call hev, k2, hafter]
      rfl
    refine ⟨k1, k2.trans hafter, hcalls, k3, k4, ?_, ?_⟩
    · intro l hl
      refine ⟨?_, ?_⟩
      · intro y hy
        rw [hcalls, List.mem_append, List.mem_singleton] at hy
        rcases hy with hy | hy
        · exact (k5 l hl).1 y hy
        · exact ⟨l, hy.trans hl⟩
      · rw [hsum, (k5 l hl).2, hl]
        simp [Entity.key]
    · intro m hm
      rw [hsum, k6 m hm, hm]
      simp [Entity.key]
  by_cases h1 : (entityLoop client o n (L.map .label) s).exit = .returned
  · -- the labels loop returned: the call is in the milestones loop
    obtain ⟨hl, hls, hlb⟩ := entityLoop_returned client o n _ s h1
    have hlen : (callLog (entityLoop client o n (L.map .label) s).events).length =
        L.length := by
      have := congrArg List.length hl
      simpa [calls] using this
    have inLabels : ∀ c d, (entityLoop client o n (L.map .label) s).events = c ++ ev :: d →
        False := by
      intro c d hX
      have := (entityLoop_split client o n _ s c d ev x _ hX hev).2 hcont
      rw [this.2, hcl] at h1
      exact absurd h1 (by decide)
    have inMilestones : ∀ c d A2,
        pre = [Event.Group "Labels", Event.AddStepSummary "# Labels"] ++
          ((entityLoop client o n (L.map .label) s).events ++
            ([Event.EndGroup, Event.Group "Milestones", Event.AddStepSummary "# Milestones"] ++
              c)) →
        (entityLoop client o n (M.map .milestone)
          (entityLoop client o n (L.map .label) s).remote).events = c ++ ev :: d →
        post = d ++ A2 →
        ((entityLoop client o n (M.map .milestone)
          (entityLoop client o n (L.map .label) s).remote).exit ≠ .returned →
            A2 = [] ∧ (reconcile client o n L M s).exit =
              (entityLoop client o n (M.map .milestone)
                (entityLoop client o n (L.map .label) s).remote).exit) →
        (reconcile client o n L M s).exit = .fatal ∧
          post = x.afterCall (some (.errorResponse r)) ∧
          calls pre ++ [x] <+: entities L M ∧
          (∀ p ∈ callLog pre, Benign p.2) ∧
          (∀ l, x = .label l → (∀ y ∈ calls pre, ∃ l2, y = .label l2) ∧
            summary pre = "# Labels" :: (callLog pre).map (fun p => outcomeLine p.1 p.2)) ∧
          (∀ m, x = .milestone m →
            summary pre =
              "# Labels" ::
                ((callLog pre).take L.length).map (fun p => outcomeLine p.1 p.2) ++
              "# Milestones" ::
                ((callLog pre).drop L.length).map (fun p => outcomeLine p.1 p.2)) := by
      intro c d A2 hpre hY hpost hstop
      obtain ⟨hpfx, hlast⟩ := entityLoop_split client o n _ _ c d ev x _ hY hev
      obtain ⟨hcb, hcs⟩ := entityLoop_before client o n _ _ c d ev x _ hY hev
      obtain ⟨hd, hexit⟩ := hlast hcont
      rw [hcl] at hexit
      have hne : (entityLoop client o n (M.map .milestone)
          (entityLoop client o n (L.map .label) s).remote).exit ≠ .returned := by
        rw [hexit]; decide
      obtain ⟨hA2, hex⟩ := hstop hne
      have hcp : calls pre = L.map Entity.label ++ calls c := by
        rw [hpre]
        simp only [calls_append, hl, calls_of_callLog_nil callLog_labelsHeader,
          calls_of_callLog_nil callLog_milestonesHeader, List.nil_append]
      have hlp : callLog pre =
          callLog (entityLoop client o n (L.map .label) s).events ++ callLog c := by
        rw [hpre]
        simp only [callLog_append, callLog_labelsHeader, callLog_milestonesHeader,
          List.nil_append]
      have hxm : x ∈ M.map Entity.milestone :=
        hpfx.subset (List.mem_append_right _ (List.mem_singleton.mpr rfl))
      obtain ⟨m0, hm0⟩ := milestone_of_mem_map hxm
      refine ⟨hex.trans hexit, by rw [hpost, hA2, hd, List.append_nil], ?_, ?_, ?_, ?_⟩
      · rw [hcp, List.append_assoc]
        exact (List.prefix_append_right_inj _).mpr hpfx
      · intro p hp
        rw [hlp, List.mem_append] at hp
        rcases hp with hp | hp
        · exact hlb p hp
        · exact hcb p hp
      · intro l hx
        rw [hx] at hm0
        exact absurd hm0 (by simp)
      · intro m _
        rw [hlp, List.take_left' hlen, List.drop_left' hlen, ← hls, ← hcs, hpre]
        simp only [summary_append, summary_labelsHeader, summary_milestonesHeader]
        simp
    by_cases h2 : (entityLoop client o n (M.map .milestone)
        (entityLoop client o n (L.map .label) s).remote).exit = .returned
    · have hsh := reconcile_done client o n L M s h1 h2
      have h' : pre ++ ev :: post =
          [Event.Group "Labels", Event.AddStepSummary "# Labels"] ++
            ((entityLoop client o n (L.map .label) s).events ++
              ([Event.EndGroup, Event.Group "Milestones", Event.AddStepSummary "# Milestones"] ++
                ((entityLoop client o n (M.map .milestone)
                    (entityLoop client o n (L.map .label) s).remote).events ++
                  [Event.EndGroup, Event.AddStepSummary "Milisman finished."]))) := by
        rw [← hrun, hsh]; simp
      rcases split_two callLog_labelsHeader callLog_milestonesHeader callLog_footer hev h'
        with ⟨c, d, -, hX, -⟩ | ⟨c, d, hpre, hY, hpost⟩
      · exact (inLabels c d hX).elim
      · exact inMilestones c d _ hpre hY hpost (fun hne => absurd h2 hne)
    · have hsh := reconcile_stop_milestones client o n L M s h1 h2
      have h' : pre ++ ev :: post =
          [Event.Group "Labels", Event.AddStepSummary "# Labels"] ++
            ((entityLoop client o n (L.map .label) s).events ++
              ([Event.EndGroup, Event.Group "Milestones", Event.AddStepSummary "# Milestones"] ++
                ((entityLoop client o n (M.map .milestone)
                    (entityLoop client o n (L.map .label) s).remote).events ++ []))) := by
        rw [← hrun, hsh]; simp
      rcases split_two callLog_labelsHeader callLog_milestonesHeader callLog_nil hev h'
        with ⟨c, d, -, hX, -⟩ | ⟨c, d, hpre, hY, hpost⟩
      · exact (inLabels c d hX).elim
      · exact inMilestones c d _ hpre hY hpost (fun _ => ⟨rfl, by rw [hsh]⟩)
  · -- the labels loop stopped: the call is in it
    have hsh := reconcile_stop_labels client o n L M s h1
    have h' : pre ++ ev :: post =
        [Event.Group "Labels", Event.AddStepSummary "# Labels"] ++
          (entityLoop client o n (L.map .label) s).events := by
      rw [← hrun, hsh]
    obtain ⟨c, hpre, hX⟩ := split_noCall callLog_labelsHeader hev h'
    obtain ⟨hpfx, hlast⟩ := entityLoop_split client o n _ s c post ev x _ hX hev
    obtain ⟨hcb, hcs⟩ := entityLoop_before client o n _ s c post ev x _ hX hev
    obtain ⟨hd, hexit⟩ := hlast hcont
    rw [hcl] at hexit
    have hcp : calls pre = calls c := by
      rw [hpre, calls_append, calls_of_callLog_nil callLog_labelsHeader, List.nil_append]
    have hlp : callLog pre = callLog c := by
      rw [hpre, callLog_append, callLog_labelsHeader, List.nil_append]
    have hxl : x ∈ L.map Entity.label :=
      hpfx.subset (List.mem_append_right _ (List.mem_singleton.mpr rfl))
    obtain ⟨l0, hl0⟩ := label_of_mem_map hxl
    refine ⟨by rw [hsh]; exact hexit, hd, ?_, ?_, ?_, ?_⟩
    · rw [hcp]
      exact hpfx.trans (List.prefix_append _ _)
    · rw [hlp]; exact hcb
    · intro l _
      refine ⟨?_, ?_⟩
      · intro y hy
        rw [hcp] at hy
        exact label_of_mem_map (hpfx.subset (List.mem_append_left _ hy))
      · rw [hlp, ← hcs, hpre, summary_append, summary_labelsHeader]
        rfl
    · intro m hx
      rw [hx] at hl0
      exact absurd hl0 (by simp)

/-- Witness of C1: three labels and a milestone, the second create call is
rejected with the code `invalid`.  One "Created" line is emitted, then the
failure; the third label and the milestone are never attempted. -/
theorem reconcile_early_halt_witness :
    (reconcile (scriptedClient [none, some invalidColor]) "octo" "repo"
        [labelNamed "bug", labelNamed "feature", labelNamed "docs"]
        [milestoneTitled "v1"] 0).events =
      [.Group "Labels", .AddStepSummary "# Labels",
       .CreateLabel "octo" "repo" (labelNamed "bug") none,
       .AddStepSummary "bug Created", .Infof "label bug created.",
       .CreateLabel "octo" "repo" (labelNamed "feature") (some invalidColor),
       .AddStepSummary "feature Failed",
       .Fatalf "failed to create label: 422 Validation Failed"] ∧
    (reconcile (scriptedClient [none, some invalidColor]) "octo" "repo"
        [labelNamed "bug", labelNamed "feature", labelNamed "docs"]
        [milestoneTitled "v1"] 0).exit = .fatal ∧
    calls (reconcile (scriptedClient [none, some invalidColor]) "octo" "repo"
        [labelNamed "bug", labelNamed "feature", labelNamed "docs"]
        [milestoneTitled "v1"] 0).events =
      [.label (labelNamed "bug"), .label (labelNamed "feature")] ∧
    summary (reconcile (scriptedClient [none, some invalidColor]) "octo" "repo"
        [labelNamed "bug", labelNamed "feature", labelNamed "docs"]
        [milestoneTitled "v1"] 0).events =
      ["# Labels", "bug Created", "feature Failed"] := by
  have h := reconcile_early_halt (scriptedClient [none, some invalidColor]) "octo" "repo"
    [labelNamed "bug", labelNamed "feature", labelNamed "docs"] [milestoneTitled "v1"] 0
    [.Group "Labels", .AddStepSummary "# Labels",
     .CreateLabel "octo" "repo" (labelNamed "bug") none,
     .AddStepSummary "bug Created", .Infof "label bug created."]
    [.AddStepSummary "feature Failed",
     .Fatalf "failed to create label: 422 Validation Failed"]
    (.CreateLabel "octo" "repo" (labelNamed "feature") (some invalidColor))
    (.label (labelNamed "feature"))
    ⟨"Validation Failed", [⟨"Label", "color", "invalid", ""⟩], "422 Validation Failed"⟩
    ⟨"Label", "color", "invalid", ""⟩ [] (by decide) rfl rfl (by decide)
  exact ⟨by decide, h.1, h.2.2.1, (h.2.2.2.2.2.1 (labelNamed "feature") rfl).2⟩

/-- Witness of C3: two labels and a milestone, the second label exists
already.  All three calls are issued in order and the summary has one line
per entity. -/
theorem reconcile_processing_order_witness :
    (reconcile (scriptedClient [none, some (alreadyExists "Label" "name"), none]) "octo" "repo"
        [labelNamed "bug", labelNamed "feature"] [milestoneTitled "v1"] 0).exit = .returned ∧
    calls (reconcile (scriptedClient [none, some (alreadyExists "Label" "name"), none])
        "octo" "repo" [labelNamed "bug", labelNamed "feature"] [milestoneTitled "v1"] 0).events =
      [.label (labelNamed "bug"), .label (labelNamed "feature"),
       .milestone (milestoneTitled "v1")] ∧
    summary (reconcile (scriptedClient [none, some (alreadyExists "Label" "name"), none])
        "octo" "repo" [labelNamed "bug", labelNamed "feature"] [milestoneTitled "v1"] 0).events =
      ["# Labels", "bug Created", "feature Skipped", "# Milestones", "v1 Created",
       "Milisman finished."] :=
  (reconcile_processing_order (scriptedClient [none, some (alreadyExists "Label" "name"), none])
    "octo" "repo" [labelNamed "bug", labelNamed "feature"] [milestoneTitled "v1"] 0).2.1
    (fun p hp => (benign_iff p.2).mpr (by revert p; decide))

/-- C2. Create-or-skip classification.  In either loop, from any state of the
remote service: when the create call returns nil, the iteration records the
call, the summary line "<key> Created" and the log line, and the loop goes on
with the rest of the list; when it returns an error response whose first error
detail has the code `already_exists`, whatever its message texts and other
details, the iteration records the call, the log line and the summary line
"<key> Skipped", and the loop goes on with the rest of the list.  The branch
taken on an error response depends only on the code of its first error
detail. -/
theorem create_or_skip {σ : Type} (client : Client σ) (o n : String) (s : σ) :
    (∀ label rest, (client.CreateLabel s o n label).2 = none →
      labelsLoop client o n (label :: rest) s =
        (labelsLoop client o n rest (client.CreateLabel s o n label).1).after
          [.CreateLabel o n label none,
           .AddStepSummary (GetName label ++ " Created"),
           .Infof ("label " ++ GetName label ++ " created.")]) ∧
    (∀ label rest r e0 tl, (client.CreateLabel s o n label).2 = some (.errorResponse r) →
      r.Errors = e0 :: tl → e0.Code = "already_exists" →
      labelsLoop client o n (label :: rest) s =
        (labelsLoop client o n rest (client.CreateLabel s o n label).1).after
          [.CreateLabel o n label (some (.errorResponse r)),
           .Infof ("label " ++ GetName label ++ " already exists, skipping."),
           .AddStepSummary (GetName label ++ " Skipped")]) ∧
    (∀ milestone rest, (client.CreateMilestone s o n milestone).2 = none →
      milestonesLoop client o n (milestone :: rest) s =
        (milestonesLoop client o n rest (client.CreateMilestone s o n milestone).1).after
          [.CreateMilestone o n milestone none,
           .AddStepSummary (GetTitle milestone ++ " Created"),
           .Infof ("milestone " ++ GetTitle milestone ++ " created.")]) ∧
    (∀ milestone rest r e0 tl,
      (client.CreateMilestone s o n milestone).2 = some (.errorResponse r) →
      r.Errors = e0 :: tl → e0.Code = "already_exists" →
      milestonesLoop client o n (milestone :: rest) s =
        (milestonesLoop client o n rest (client.CreateMilestone s o n milestone).1).after
          [.CreateMilestone o n milestone (some (.errorResponse r)),
           .Infof ("milestone " ++ GetTitle milestone ++ " already exists, skipping."),
           .AddStepSummary (GetTitle milestone ++ " Skipped")]) ∧
    (∀ r r2 : ErrorResponse,
      r.Errors.head?.map Error.Code = r2.Errors.head?.map Error.Code →
      classify (some (.errorResponse r)) = classify (some (.errorResponse r2))) := by
  refine ⟨?_, ?_, ?_, ?_, ?_⟩
  · intro label rest h
    simp [labelsLoop, h]
  · intro label rest r e0 tl h hr hc
    simp [labelsLoop, h, GoError.assertErrorResponse, hr, hc]
  · intro milestone rest h
    simp [milestonesLoop, h]
  · intro milestone rest r e0 tl h hr hc
    simp [milestonesLoop, h, GoError.assertErrorResponse, hr, hc]
  · intro r r2 h
    rcases hr : r.Errors with _ | ⟨e0, tl⟩ <;> rcases hr2 : r2.Errors with _ | ⟨e2, tl2⟩ <;>
      simp [hr, hr2] at h <;> simp [classify, GoError.assertErrorResponse, hr, hr2, h]

/-- Witness of C2: a label whose create call succeeds, and a milestone whose
create call answers `already_exists`. -/
theorem create_or_skip_witness :
    labelsLoop (scriptedClient [none]) "octo" "repo" [labelNamed "bug"] 0 =
      (labelsLoop (scriptedClient [none]) "octo" "repo" [] 1).after
        [.CreateLabel "octo" "repo" (labelNamed "bug") none,
         .AddStepSummary "bug Created", .Infof "label bug created."] ∧
    milestonesLoop (scriptedClient [some (alreadyExists "Milestone" "title")]) "octo" "repo"
        [milestoneTitled "v1", milestoneTitled "v2"] 0 =
      (milestonesLoop (scriptedClient [some (alreadyExists "Milestone" "title")]) "octo" "repo"
        [milestoneTitled "v2"] 1).after
        [.CreateMilestone "octo" "repo" (milestoneTitled "v1")
           (some (alreadyExists "Milestone" "title")),
         .Infof "milestone v1 already exists, skipping.",
         .AddStepSummary "v1 Skipped"] :=
  ⟨(create_or_skip (scriptedClient [none]) "octo" "repo" 0).1 (labelNamed "bug") [] rfl,
   (create_or_skip (scriptedClient [some (alreadyExists "Milestone" "title")]) "octo" "repo"
      0).2.2.2.1 (milestoneTitled "v1") [milestoneTitled "v2"]
      ⟨"Validation Failed", [⟨"Milestone", "title", "already_exists", ""⟩],
        "422 Validation Failed"⟩
      ⟨"Milestone", "title", "already_exists", ""⟩ [] rfl rfl rfl⟩

/-- C9, the code at the failing inputs.  A create call that returns an error
of another dynamic type (a network fault), or an API error response without
error details ("Not Found"), ends the run in a runtime panic at the error
classification: the call is the last event, no "<key> Failed" line is added
to the summary and `Fatalf` is not called.  The same holds in the milestones
loop. -/
theorem classification_panics :
    labelsLoop (scriptedClient [some networkFault]) "octo" "repo"
        [labelNamed "bug", labelNamed "docs"] 0 =
      ⟨[.CreateLabel "octo" "repo" (labelNamed "bug") (some networkFault)], .panicked, 1⟩ ∧
    labelsLoop (scriptedClient [some notFound]) "octo" "repo"
        [labelNamed "bug", labelNamed "docs"] 0 =
      ⟨[.CreateLabel "octo" "repo" (labelNamed "bug") (some notFound)], .panicked, 1⟩ ∧
    milestonesLoop (scriptedClient [some notFound]) "octo" "repo" [milestoneTitled "v1"] 0 =
      ⟨[.CreateMilestone "octo" "repo" (milestoneTitled "v1") (some notFound)],
        .panicked, 1⟩ ∧
    (reconcile (scriptedClient [some networkFault]) "octo" "repo"
        [labelNamed "bug", labelNamed "docs"] [milestoneTitled "v1"] 0).events =
      [.Group "Labels", .AddStepSummary "# Labels",
       .CreateLabel "octo" "repo" (labelNamed "bug") (some networkFault)] ∧
    (reconcile (scriptedClient [some networkFault]) "octo" "repo"
        [labelNamed "bug", labelNamed "docs"] [milestoneTitled "v1"] 0).exit = .panicked :=
  ⟨rfl, rfl, rfl, rfl, rfl⟩

/-! ## The remote store -/

theorem classify_conflict (x : Entity) : classify (some x.conflict) = .skipped := by
  cases x <;> rfl

theorem store_create_has {s : Store} {x : Entity} (o n : String) (h : s.has x) :
    storeClient.create s o n x = (s, some x.conflict) := by
  cases x <;> simp_all [Client.create, storeClient, Store.has, Entity.conflict]

theorem store_create_new {s : Store} {x : Entity} (o n : String) (h : ¬ s.has x) :
    (storeClient.create s o n x).2 = none := by
  cases x <;> simp_all [Client.create, storeClient, Store.has]

theorem store_create_mono {s : Store} {x y : Entity} (o n : String) (h : s.has y) :
    (storeClient.create s o n x).1.has y := by
  by_cases hx : s.has x
  · rw [store_create_has o n hx]; exact h
  · cases x <;> cases y <;> simp_all [Client.create, storeClient, Store.has]

theorem store_create_covers (s : Store) (x : Entity) (o n : String) :
    (storeClient.create s o n x).1.has x := by
  by_cases hx : s.has x
  · rw [store_create_has o n hx]; exact hx
  · cases x <;> simp_all [Client.create, storeClient, Store.has]

theorem store_continues (s : Store) (x : Entity) (o n : String) :
    (classify (storeClient.create s o n x).2).continues = true := by
  by_cases hx : s.has x
  · rw [store_create_has o n hx, classify_conflict]; rfl
  · rw [store_create_new o n hx]; rfl

theorem store_loop_cons (o n : String) (x : Entity) (rest : List Entity) (s : Store) :
    entityLoop storeClient o n (x :: rest) s =
      (entityLoop storeClient o n rest (storeClient.create s o n x).1).after
        (x.callEvent o n (storeClient.create s o n x).2 ::
          x.afterCall (storeClient.create s o n x).2) := by
  rw [entityLoop_cons, if_pos (store_continues s x o n)]

/-- Against the store no run stops early. -/
theorem store_loop_exit (o n : String) (xs : List Entity) (s : Store) :
    (entityLoop storeClient o n xs s).exit = .returned := by
  induction xs generalizing s with
  | nil => rfl
  | cons x rest ih => rw [store_loop_cons]; exact ih _

theorem store_loop_mono (o n : String) (xs : List Entity) (s : Store) (y : Entity)
    (h : s.has y) : (entityLoop storeClient o n xs s).remote.has y := by
  induction xs generalizing s with
  | nil => exact h
  | cons x rest ih =>
    rw [store_loop_cons]
    exact ih _ (store_create_mono o n h)

theorem store_loop_covers (o n : String) (xs : List Entity) (s : Store) :
    ∀ x ∈ xs, (entityLoop storeClient o n xs s).remote.has x := by
  induction xs generalizing s with
  | nil => simp
  | cons x rest ih =>
    intro y hy
    rw [store_loop_cons]
    rcases List.mem_cons.mp hy with rfl | hy
    · exact store_loop_mono o n rest _ _ (store_create_covers s y o n)
    · exact ih _ y hy

/-- A loop over entities the store already holds skips every one of them and
leaves the store as it is. -/
theorem store_loop_skip (o n : String) (xs : List Entity) (s : Store)
    (h : ∀ x ∈ xs, s.has x) :
    (entityLoop storeClient o n xs s).remote = s ∧
    callLog (entityLoop storeClient o n xs s).events =
      xs.map (fun x => (x, some x.conflict)) := by
  induction xs generalizing s with
  | nil => exact ⟨rfl, rfl⟩
  | cons x rest ih =>
    have hx := h x (List.mem_cons_self _ _)
    rw [store_loop_cons, store_create_has o n hx]
    obtain ⟨h1, h2⟩ := ih s (fun y hy => h y (List.mem_cons_of_mem _ hy))
    exact ⟨h1, by simp [Run.after, h2]⟩

theorem outcomeLine_conflict (x : Entity) :
    outcomeLine x (some x.conflict) = x.key ++ " Skipped" := by
  simp [outcomeLine]

/-- C4. Idempotence of reconciliation, against the remote store.  For every
Desired-State and every initial store: if a first run returns (no fatal
failure), then a second run of the same Desired-State against the store the
first run left returns as well, answers `already_exists` to every create call,
so that the summary is one "Skipped" line per entity, and leaves the store
unchanged. -/
theorem reconcile_idempotent (o n : String) (L : List (Option Label))
    (M : List (Option Milestone)) (s : Store)
    (hfirst : (reconcile storeClient o n L M s).exit = .returned) :
    (reconcile storeClient o n L M (reconcile storeClient o n L M s).remote).exit = .returned ∧
    (reconcile storeClient o n L M (reconcile storeClient o n L M s).remote).remote =
      (reconcile storeClient o n L M s).remote ∧
    callLog (reconcile storeClient o n L M (reconcile storeClient o n L M s).remote).events =
      (entities L M).map (fun x => (x, some x.conflict)) ∧
    summary (reconcile storeClient o n L M (reconcile storeClient o n L M s).remote).events =
      "# Labels" :: L.map (fun l => GetName l ++ " Skipped") ++
      "# Milestones" :: M.map (fun m => GetTitle m ++ " Skipped") ++
      ["Milisman finished."] := by
  have _first := hfirst
  have e1 := store_loop_exit o n (L.map .label) s
  have e2 := store_loop_exit o n (M.map .milestone)
    (entityLoop storeClient o n (L.map .label) s).remote
  have hrem : (reconcile storeClient o n L M s).remote =
      (entityLoop storeClient o n (M.map .milestone)
        (entityLoop storeClient o n (L.map .label) s).remote).remote := by
    rw [reconcile_done storeClient o n L M s e1 e2]
  -- the store after the first run holds every entity
  have hasL : ∀ x ∈ L.map Entity.label, (reconcile storeClient o n L M s).remote.has x := by
    intro x hx
    rw [hrem]
    exact store_loop_mono o n _ _ x (store_loop_covers o n _ s x hx)
  have hasM : ∀ x ∈ M.map Entity.milestone,
      (reconcile storeClient o n L M s).remote.has x := by
    intro x hx
    rw [hrem]
    exact store_loop_covers o n _ _ x hx
  generalize (reconcile storeClient o n L M s).remote = s1 at hasL hasM
  obtain ⟨l1, l2⟩ := store_loop_skip o n _ s1 hasL
  have hasM2 : ∀ x ∈ M.map Entity.milestone,
      (entityLoop storeClient o n (L.map .label) s1).remote.has x := by
    rw [l1]; exact hasM
  obtain ⟨m1, m2⟩ := store_loop_skip o n _ _ hasM2
  have f1 := store_loop_exit o n (L.map .label) s1
  have f2 := store_loop_exit o n (M.map .milestone)
    (entityLoop storeClient o n (L.map .label) s1).remote
  have sl := (entityLoop_returned storeClient o n _ s1 f1).2.1
  have sm := (entityLoop_returned storeClient o n _ _ f2).2.1
  rw [l2] at sl
  rw [m2] at sm
  refine ⟨?_, ?_, ?_, ?_⟩
  · rw [reconcile_done storeClient o n L M s1 f1 f2]
  · rw [reconcile_done storeClient o n L M s1 f1 f2, m1, l1]
  · rw [reconcile_callLog, if_pos f1, l2, m2]
    simp [entities]
  · rw [reconcile_done storeClient o n L M s1 f1 f2]
    simp only [summary_append, sl, sm]
    simp [summary, Event.summary?, outcomeLine_conflict, Entity.key, Function.comp_def]

/-- Witness of C4: a label and a milestone against the empty store.  The first
run creates both, the second run skips both and leaves the store as it is. -/
theorem reconcile_idempotent_witness :
    (reconcile storeClient "octo" "repo" [labelNamed "bug"] [milestoneTitled "v1"]
      ⟨[], []⟩).remote = ⟨["bug"], ["v1"]⟩ ∧
    summary (reconcile storeClient "octo" "repo" [labelNamed "bug"] [milestoneTitled "v1"]
      ⟨[], []⟩).events =
      ["# Labels", "bug Created", "# Milestones", "v1 Created", "Milisman finished."] ∧
    ((reconcile storeClient "octo" "repo" [labelNamed "bug"] [milestoneTitled "v1"]
        ⟨["bug"], ["v1"]⟩).exit = .returned ∧
      (reconcile storeClient "octo" "repo" [labelNamed "bug"] [milestoneTitled "v1"]
        ⟨["bug"], ["v1"]⟩).remote = ⟨["bug"], ["v1"]⟩ ∧
      callLog (reconcile storeClient "octo" "repo" [labelNamed "bug"] [milestoneTitled "v1"]
        ⟨["bug"], ["v1"]⟩).events =
        [(.label (labelNamed "bug"), some (alreadyExists "Label" "name")),
         (.milestone (milestoneTitled "v1"), some (alreadyExists "Milestone" "title"))] ∧
      summary (reconcile storeClient "octo" "repo" [labelNamed "bug"] [milestoneTitled "v1"]
        ⟨["bug"], ["v1"]⟩).events =
        ["# Labels", "bug Skipped", "# Milestones", "v1 Skipped", "Milisman finished."]) :=
  ⟨by decide, by decide,
    reconcile_idempotent "octo" "repo" [labelNamed "bug"] [milestoneTitled "v1"] ⟨[], []⟩
      (by decide)⟩

theorem store_loop_append (o n : String) (xs ys : List Entity) (s : Store) :
    entityLoop storeClient o n (xs ++ ys) s =
      (entityLoop storeClient o n ys (entityLoop storeClient o n xs s).remote).after
        (entityLoop storeClient o n xs s).events := by
  induction xs generalizing s with
  | nil => simp [entityLoop, Run.after]
  | cons x rest ih =>
    rw [List.cons_append, store_loop_cons, store_loop_cons, ih]
    simp [Run.after]

theorem store_loop_length (o n : String) (xs : List Entity) (s : Store) :
    (callLog (entityLoop storeClient o n xs s).events).length = xs.length := by
  have := congrArg List.length
    (entityLoop_returned storeClient o n xs s (store_loop_exit o n xs s)).1
  simpa [calls] using this

theorem store_labels_fresh (o n : String) (pre : List (Option Label)) (s : Store) (k : String)
    (hs : k ∉ s.labels) (hpre : ∀ l ∈ pre, GetName l ≠ k) :
    k ∉ (entityLoop storeClient o n (pre.map .label) s).remote.labels := by
  induction pre generalizing s with
  | nil => exact hs
  | cons l rest ih =>
    rw [List.map_cons, store_loop_cons]
    apply ih _ _ (fun l2 h2 => hpre l2 (List.mem_cons_of_mem _ h2))
    have hl := hpre l (List.mem_cons_self _ _)
    by_cases hx : GetName l ∈ s.labels
    · simpa [Client.create, storeClient, hx] using hs
    · simp [Client.create, storeClient, hx, hs, Ne.symm hl]

theorem getElem?_mid {α : Type} (A B : List α) (p : α) (k : Nat) (h : A.length = k) :
    (A ++ p :: B)[k]? = some p := by
  subst h
  rw [List.getElem?_append_right (le_refl _)]
  simp

/-- The calls of a labels loop against the store, around two labels of the
same name of which the first is new. -/
theorem store_duplicate_log (o n : String) (pre mid post : List (Option Label))
    (a b : Option Label) (s : Store)
    (hab : GetName a = GetName b) (hs : GetName a ∉ s.labels)
    (hpre : ∀ l ∈ pre, GetName l ≠ GetName a) :
    ∃ A B C, A.length = pre.length ∧ B.length = mid.length ∧
      callLog (entityLoop storeClient o n
        ((pre ++ a :: (mid ++ b :: post)).map .label) s).events =
        A ++ (Entity.label a, none) ::
          (B ++ (Entity.label b, some (alreadyExists "Label" "name")) :: C) := by
  have hfresh := store_labels_fresh o n pre s (GetName a) hs hpre
  have hnew : ¬ (entityLoop storeClient o n (pre.map .label) s).remote.has (.label a) := hfresh
  have hhas : (entityLoop storeClient o n (mid.map .label)
      (storeClient.create (entityLoop storeClient o n (pre.map .label) s).remote o n
        (.label a)).1).remote.has (.label b) := by
    apply store_loop_mono
    have := store_create_covers (entityLoop storeClient o n (pre.map .label) s).remote
      (.label a) o n
    simpa [Store.has, hab] using this
  refine ⟨callLog (entityLoop storeClient o n (pre.map .label) s).events,
    callLog (entityLoop storeClient o n (mid.map .label)
      (storeClient.create (entityLoop storeClient o n (pre.map .label) s).remote o n
        (.label a)).1).events,
    callLog (entityLoop storeClient o n (post.map .label)
      (entityLoop storeClient o n (mid.map .label)
        (storeClient.create (entityLoop storeClient o n (pre.map .label) s).remote o n
          (.label a)).1).remote).events,
    (store_loop_length o n (pre.map .label) s).trans (by simp),
    (store_loop_length o n (mid.map .label) _).trans (by simp), ?_⟩
  rw [List.map_append, List.map_cons, List.map_append, List.map_cons, store_loop_append,
    store_loop_cons, store_create_new o n hnew, store_loop_append, store_loop_cons,
    store_create_has o n hhas]
  simp [Run.after, Entity.conflict]

/-- C8. Duplicate identity keys, against the remote store.  For a Desired-State
with two label specs of the same name, the first of them being the first label
of that name in the sequence, and a store that does not hold the name: the run
returns, the create call of the first succeeds and its summary line is
"<name> Created", and the create call of the second answers `already_exists`
and its summary line is "<name> Skipped". -/
theorem reconcile_duplicate_labels (o n : String) (pre mid post : List (Option Label))
    (a b : Option Label) (M : List (Option Milestone)) (s : Store)
    (hab : GetName a = GetName b) (hs : GetName a ∉ s.labels)
    (hpre : ∀ l ∈ pre, GetName l ≠ GetName a) :
    (reconcile storeClient o n (pre ++ a :: (mid ++ b :: post)) M s).exit = .returned ∧
    (callLog (reconcile storeClient o n (pre ++ a :: (mid ++ b :: post)) M s).events)[
      pre.length]? = some (.label a, none) ∧
    (callLog (reconcile storeClient o n (pre ++ a :: (mid ++ b :: post)) M s).events)[
      pre.length + 1 + mid.length]? = some (.label b, some (alreadyExists "Label" "name")) ∧
    (summary (reconcile storeClient o n (pre ++ a :: (mid ++ b :: post)) M s).events)[
      1 + pre.length]? = some (GetName a ++ " Created") ∧
    (summary (reconcile storeClient o n (pre ++ a :: (mid ++ b :: post)) M s).events)[
      1 + pre.length + 1 + mid.length]? = some (GetName b ++ " Skipped") := by
  obtain ⟨A, B, C, hA, hB, hlog⟩ := store_duplicate_log o n pre mid post a b s hab hs hpre
  have f1 := store_loop_exit o n ((pre ++ a :: (mid ++ b :: post)).map .label) s
  have f2 := store_loop_exit o n (M.map .milestone)
    (entityLoop storeClient o n ((pre ++ a :: (mid ++ b :: post)).map .label) s).remote
  have hsum := (entityLoop_returned storeClient o n _ s f1).2.1
  rw [hlog] at hsum
  have hcl : callLog (reconcile storeClient o n (pre ++ a :: (mid ++ b :: post)) M s).events =
      A ++ (Entity.label a, none) ::
        (B ++ (Entity.label b, some (alreadyExists "Label" "name")) ::
          (C ++ callLog (entityLoop storeClient o n (M.map .milestone)
            (entityLoop storeClient o n
              ((pre ++ a :: (mid ++ b :: post)).map .label) s).remote).events)) := by
    rw [reconcile_callLog, if_pos f1, hlog]
    simp
  have hsm : ∃ T, summary (reconcile storeClient o n (pre ++ a :: (mid ++ b :: post)) M
      s).events =
      ("# Labels" :: A.map (fun p => outcomeLine p.1 p.2)) ++ (GetName a ++ " Created") ::
        (B.map (fun p => outcomeLine p.1 p.2) ++ (GetName b ++ " Skipped") :: T) := by
    refine ⟨C.map (fun p => outcomeLine p.1 p.2) ++ "# Milestones" ::
      (summary (entityLoop storeClient o n (M.map .milestone)
        (entityLoop storeClient o n
          ((pre ++ a :: (mid ++ b :: post)).map .label) s).remote).events ++
        ["Milisman finished."]), ?_⟩
    rw [reconcile_done storeClient o n _ M s f1 f2]
    simp only [summary_append, hsum]
    simp [summary, Event.summary?, outcomeLine, Entity.key, alreadyExists]
  obtain ⟨T, hsm⟩ := hsm
  refine ⟨?_, ?_, ?_, ?_, ?_⟩
  · rw [reconcile_done storeClient o n _ M s f1 f2]
  · rw [hcl]
    exact getElem?_mid _ _ _ _ hA
  · rw [hcl, ← List.cons_append, ← List.append_assoc]
    exact getElem?_mid _ _ _ _ (by simp [hA, hB]; omega)
  · rw [hsm]
    exact getElem?_mid _ _ _ _ (by simp [hA]; omega)
  · rw [hsm, ← List.cons_append, ← List.append_assoc]
    exact getElem?_mid _ _ _ _ (by simp [hA, hB]; omega)

/-- Witness of C8, the example of the specification: the labels `bug`, `bug`
against a store without `bug` give "bug Created", then "bug Skipped". -/
theorem reconcile_duplicate_labels_witness :
    summary (reconcile storeClient "octo" "repo" [labelNamed "bug", labelNamed "bug"] []
      ⟨[], []⟩).events =
      ["# Labels", "bug Created", "bug Skipped", "# Milestones", "Milisman finished."] ∧
    ((reconcile storeClient "octo" "repo" [labelNamed "bug", labelNamed "bug"] []
        ⟨[], []⟩).exit = .returned ∧
      (callLog (reconcile storeClient "octo" "repo" [labelNamed "bug", labelNamed "bug"] []
        ⟨[], []⟩).events)[0]? = some (.label (labelNamed "bug"), none) ∧
      (callLog (reconcile storeClient "octo" "repo" [labelNamed "bug", labelNamed "bug"] []
        ⟨[], []⟩).events)[1]? =
        some (.label (labelNamed "bug"), some (alreadyExists "Label" "name")) ∧
      (summary (reconcile storeClient "octo" "repo" [labelNamed "bug", labelNamed "bug"] []
        ⟨[], []⟩).events)[1]? = some "bug Created" ∧
      (summary (reconcile storeClient "octo" "repo" [labelNamed "bug", labelNamed "bug"] []
        ⟨[], []⟩).events)[2]? = some "bug Skipped") :=
  ⟨by decide,
    reconcile_duplicate_labels "octo" "repo" [] [] [] (labelNamed "bug") (labelNamed "bug") []
      ⟨[], []⟩ rfl (by decide) (by decide)⟩

/-! ## Configuration loading -/

/-- C7. Validation gate.  For every invocation whose `configfile` parameter is
the empty string, `Config.Validate` returns an error (the `required` tag) on
the initial configuration, and the whole run consists of the two opening
lines and the call of `Fatalf`: no `os.Stat`, no file read, no HTTP request and
no create call happens, and the remote service is left as it was. -/
theorem empty_configfile_gate {σ : Type} (env : Env σ) (s0 : σ) (h : env.configfile = "") :
    (Config.Validate env.Stat ⟨env.configfile, [], []⟩).2 = some (fieldError "required") ∧
    main env s0 =
      ⟨[.Infof "milisman starting", .AddStepSummary "# Milisman Report",
        .Fatalf ("missing configfile: " ++ fieldError "required")], .fatal, s0⟩ := by
  simp [main, load, Config.Validate, h]

/-- Witness of C7: the run with an empty `configfile` parameter. -/
theorem empty_configfile_gate_witness :
    (Config.Validate (bareEnv "").Stat ⟨(bareEnv "").configfile, [], []⟩).2 =
      some (fieldError "required") ∧
    main (bareEnv "") 0 =
      ⟨[.Infof "milisman starting", .AddStepSummary "# Milisman Report",
        .Fatalf ("missing configfile: " ++ fieldError "required")], .fatal, 0⟩ :=
  empty_configfile_gate (bareEnv "") 0 rfl

/-- C5, the code at the failing input.  The `configfile` parameter is the
absolute path of a readable local file.  It passes the pre-fetch validation
(the `file` validator), `url.ParseRequestURI` accepts it as an absolute path,
and the loader calls `http.Get` on it; the file is never read and the run ends
in `Fatalf`.  A relative path of the same file is read with `os.ReadFile`. -/
theorem absolute_path_fetched_over_http :
    url.ParseRequestURI "/github/workspace/labels.yml" =
      some ⟨"", "", "", "/github/workspace/labels.yml"⟩ ∧
    Config.Validate absolutePathEnv.Stat ⟨"/github/workspace/labels.yml", [], []⟩ =
      ([.Stat "/github/workspace/labels.yml"], none) ∧
    absolutePathEnv.ReadFile "/github/workspace/labels.yml" = .ok "labels:\n- name: bug\n" ∧
    main absolutePathEnv 0 =
      ⟨[.Infof "milisman starting", .AddStepSummary "# Milisman Report",
        .Stat "/github/workspace/labels.yml",
        .Get "/github/workspace/labels.yml",
        .Fatalf "failed to read config file: unsupported protocol scheme"], .fatal, 0⟩ ∧
    fetch localFileEnv "labels.yml" =
      ([.ReadFile "labels.yml"], .ok "labels:\n- name: bug\n") := by
  refine ⟨by decide, by decide, rfl, by rfl, by rfl⟩

/-- C6, the code at the failing input.  The configuration is fetched over
HTTP and reading the response body fails after the first label.  The error of
`io.ReadAll` is dropped: the run goes on with the bytes read so far, issues a
create call for the label in them, and returns. -/
theorem broken_body_not_fatal :
    brokenBodyEnv.Get "https://example.com/labels.yml" =
      .ok ("labels:\n- name: bug\n", some "unexpected EOF") ∧
    main brokenBodyEnv 0 =
      ⟨[.Infof "milisman starting", .AddStepSummary "# Milisman Report",
        .Stat "https://example.com/labels.yml",
        .Get "https://example.com/labels.yml", .ReadAll,
        .Unmarshal "labels:\n- name: bug\n",
        .Stat "https://example.com/labels.yml",
        .AddStepSummary "Using config file: https://example.com/labels.yml",
        .Context, .Getenv "GITHUB_TOKEN",
        .Group "Labels", .AddStepSummary "# Labels",
        .CreateLabel "octo" "repo" (labelNamed "bug") none,
        .AddStepSummary "bug Created", .Infof "label bug created.",
        .EndGroup, .Group "Milestones", .AddStepSummary "# Milestones",
        .EndGroup, .AddStepSummary "Milisman finished."], .returned, 1⟩ := by
  refine ⟨rfl, by rfl⟩

/-- C10, the code at the failing inputs.  `yaml.Unmarshal` decodes into the
`Config` value that holds the invocation parameter, and the untagged field
`ConfigFile` takes the document's top-level `configfile` key.  With the
parameter `labels.yml` and a document that names another source under that
key, the bytes are read from `labels.yml`, `ConfigFile` after decoding is the
other source, not the parameter, no request for the other source is ever made,
and the run goes on and reports "Using config file:" with the source it never
loaded.  With a document whose key holds the empty string, the second
validation fails on `required` and the run of a valid invocation ends in
`Fatalf` before any create call. -/
theorem configfile_overridden_by_document :
    overridingEnv.configfile = "labels.yml" ∧
    (load overridingEnv).2 = .ok ⟨"https://example.com/other.yml", [], []⟩ ∧
    ¬ (∀ c, (load overridingEnv).2 = .ok c → c.ConfigFile = overridingEnv.configfile) ∧
    main overridingEnv 0 =
      ⟨[.Infof "milisman starting", .AddStepSummary "# Milisman Report",
        .Stat "labels.yml", .ReadFile "labels.yml",
        .Unmarshal "configfile: https://example.com/other.yml\n",
        .Stat "https://example.com/other.yml",
        .AddStepSummary "Using config file: https://example.com/other.yml",
        .Context, .Getenv "GITHUB_TOKEN",
        .Group "Labels", .AddStepSummary "# Labels",
        .EndGroup, .Group "Milestones", .AddStepSummary "# Milestones",
        .EndGroup, .AddStepSummary "Milisman finished."], .returned, 0⟩ ∧
    emptyKeyEnv.configfile = "labels.yml" ∧
    Config.Validate emptyKeyEnv.Stat ⟨emptyKeyEnv.configfile, [], []⟩ =
      ([.Stat "labels.yml"], none) ∧
    main emptyKeyEnv 0 =
      ⟨[.Infof "milisman starting", .AddStepSummary "# Milisman Report",
        .Stat "labels.yml", .ReadFile "labels.yml",
        .Unmarshal "configfile: \"\"\nlabels:\n- name: bug\n",
        .Fatalf ("invalid configuration: " ++ fieldError "required")], .fatal, 0⟩ := by
  have h : (load overridingEnv).2 = .ok ⟨"https://example.com/other.yml", [], []⟩ := by rfl
  refine ⟨rfl, h, fun hall => ?_, by rfl, rfl, by decide, by rfl⟩
  have := hall _ h
  revert this
  decide

end Sediment
